import Mathlib

/-!
# Locality-sensitive-hashing search model (`lshModel`)

A shallow embedding of `src/mlpack/methods/lsh/lsh_model_impl.hpp`.

Conventions of the embedding.

* `double` values are an abstract type `D`.  Only comparisons of distances are
  used by the search code, so the theorems that order distances ask for a
  linear order on `D` (finite, non-NaN doubles).
* `size_t` values are natural numbers.  The one place where unsigned
  wrap-around would matter (`distances.n_rows - 1` on a matrix without rows)
  lies behind the bounds condition of `InsertNeighbor`, where the raw accesses
  of the source are outside their buffers.  The two counters
  (`avgIndicesReturned`, `distanceEvaluations`) wrap around as unsigned
  64-bit sums do (`size_t`).
* A call ends in one of three ways (`Outcome`): it returns, it throws
  `std::invalid_argument`, or it runs into behaviour the language leaves
  undefined (a write outside a result column, the division by a zero number of
  queries).
* `Train` uses three `double` operations (`+=`, `std::sqrt`, `/= 25`); they
  are parameters (`DoubleOps`) of which no law is assumed.  The random draws
  of `math::RandInt` are a parameter too: `rand n` is the value of the `n`-th
  call.
* An archive is the record of its named fields, so that what is saved under a
  name is what is loaded under it.
* Whether a call deletes the reference set stored before is recorded in the
  result of the call (`deleted`).
* A matrix is stored column by column, as armadillo does.
* The collaborators that are not part of the two source files (the hash
  tables behind `hash.hashQuery`, the metrics, the sort policy) are
  parameters.
-/

namespace mlpack
namespace neighbor

/-! ## Matrices -/

/-- Column-major matrix (`arma::Mat`): `mem` holds one list per column. -/
structure Mat (α : Type) where
  n_rows : Nat
  n_cols : Nat
  mem : List (List α)
  deriving DecidableEq

/-- Resize without initialising (`set_size`): the dimensions change and the
contents are unspecified until the next `fill`; the model keeps the stale
memory. -/
def Mat.set_size {α : Type} (m : Mat α) (rows cols : Nat) : Mat α :=
  { n_rows := rows, n_cols := cols, mem := m.mem }

/-- Overwrite every element with `v` (`fill`). -/
def Mat.fill {α : Type} (m : Mat α) (v : α) : Mat α :=
  { m with mem := List.replicate m.n_cols (List.replicate m.n_rows v) }

/-- Column `i` (`col`, `unsafe_col`, `colptr`). -/
def Mat.col {α : Type} (m : Mat α) (i : Nat) : List α :=
  m.mem.getD i []

/-- Store a whole column back (the effect of writing through `colptr`). -/
def Mat.setCol {α : Type} (m : Mat α) (i : Nat) (c : List α) : Mat α :=
  { m with mem := m.mem.set i c }

/-- The stored columns agree with the recorded dimensions. -/
def Mat.WF {α : Type} (m : Mat α) : Prop :=
  m.mem.length = m.n_cols ∧ ∀ c ∈ m.mem, c.length = m.n_rows

/-- Overlapping copy of `len` elements inside one buffer, from offset `src` to
offset `dst` (`memmove`). -/
def memmove {α : Type} (buf : List α) (dst src len : Nat) : List α :=
  buf.take dst ++ ((buf.drop src).take len ++ buf.drop (dst + len))

/-- Indices of the non-zero entries, ascending (`arma::find(v > 0)`). -/
def find (v : List Nat) : List Nat :=
  (List.range v.length).filter (fun i => decide (v.getD i 0 > 0))

/-! ## Collaborators -/

/-- The hash-table family (`hashModel`), seen through the three members that
`lshModel` calls.  `hashQuery queryPoint numTablesToSearch refPointsConsidered`
returns the mark vector after the call. -/
structure hashModel (D : Type) where
  hashQuery : List D → Nat → List Nat → List Nat
  cosineDistance : List D → List D → D
  angularDistance : List D → List D → D

/-- The metric `metric::EuclideanDistance`. -/
structure EuclideanDistance (D : Type) where
  Evaluate : List D → List D → D

/-- The template parameter `SortPolicy`.  `SortDistance` returns `none` for
the source's do-not-insert value `size_t() - 1`. -/
structure SortPolicy (D : Type) where
  WorstDistance : D
  SortDistance : List D → List Nat → D → Option Nat

/-- The loop of the nearest-first policy: the first position whose held
distance is not smaller than the new one. -/
def firstNotSmaller {D : Type} [LinearOrder D] (newDistance : D) : List D → Option Nat
  | [] => none
  | x :: xs =>
    if newDistance ≤ x then some 0
    else (firstNotSmaller newDistance xs).map (fun p => p + 1)

/-- Modelled from the spec: the nearest-first ranking policy
(`NearestNeighborSort`, not among the source files).  The worst distance is
`W`; `SortDistance` answers do-not-insert when the new distance is worse than
the last held distance, otherwise the first position whose held distance is
not smaller than the new one.  On a list without slots, where there is no last
held distance to read, the model answers do-not-insert. -/
def NearestNeighborSort {D : Type} [LinearOrder D] (W : D) : SortPolicy D where
  WorstDistance := W
  SortDistance := fun list _ newDistance =>
    match list.getLast? with
    | none => none
    | some last =>
      if newDistance > last then none else firstNotSmaller newDistance list

/-! ## The index -/

/-- The members of `lshModel`; `referenceSet` is the pointee of the stored
pointer. -/
structure lshModel (D : Type) where
  referenceSet : Mat D
  hash : hashModel D
  hashType : Nat
  secondHashSize : Nat
  bucketSize : Nat
  numProj : Nat
  numTables : Nat
  hashWidth : D
  numDimensions : Nat
  numPlanes : Nat
  ownsSet : Bool
  distanceEvaluations : Nat
  shears : Nat

/-- The message of a thrown `std::invalid_argument`. -/
inductive Message where
  | dimension_mismatch (queryRows referenceRows : Nat)
  | insufficient_data (k referencePoints : Nat)
  deriving DecidableEq, Repr

/-- Behaviour the language leaves undefined. -/
inductive Fault where
  | out_of_bounds
  | division_by_zero
  deriving DecidableEq, Repr

/-- How a call ended. -/
inductive Outcome where
  | returned
  | invalid_argument (what : Message)
  | undefined (why : Fault)
  deriving DecidableEq, Repr

/-- Everything a `Search` call leaves behind: the index, the two output
matrices, and the number of `ReturnIndicesFromTable` calls it made. -/
structure SearchResult (D : Type) where
  outcome : Outcome
  model : lshModel D
  resultingNeighbors : Mat Nat
  distances : Mat D
  hashCalls : Nat

/-- The number of tables `ReturnIndicesFromTable` hands to the hash. -/
def tablesToSearch {D : Type} (self : lshModel D) (numTablesToSearch : Nat) : Nat :=
  let numTablesToSearch :=
    if numTablesToSearch = 0 then self.numTables else numTablesToSearch
  if numTablesToSearch > self.numTables then self.numTables else numTablesToSearch

/-- Candidate reference indices of one query point. -/
def ReturnIndicesFromTable {D : Type} (self : lshModel D) (queryPoint : List D)
    (numTablesToSearch : Nat) : List Nat :=
  let refPointsConsidered := List.replicate self.referenceSet.n_cols 0
  let refPointsConsidered :=
    self.hash.hashQuery queryPoint (tablesToSearch self numTablesToSearch) refPointsConsidered
  find refPointsConsidered

/-- Shift the tail of column `queryIndex` one slot down from `pos` and write
the new pair at `pos`.  `none` when `pos` or `queryIndex` lies outside the
matrices, where the raw writes of the source leave their buffers. -/
def InsertNeighbor {D : Type} (distances : Mat D) (neighbors : Mat Nat)
    (queryIndex pos neighbor : Nat) (distance : D) : Option (Mat D × Mat Nat) :=
  if pos < distances.n_rows ∧ pos < neighbors.n_rows ∧
      queryIndex < distances.n_cols ∧ queryIndex < neighbors.n_cols then
    let dcol := distances.col queryIndex
    let ncol := neighbors.col queryIndex
    let shifted : List D × List Nat :=
      if pos < distances.n_rows - 1 then
        let len := (distances.n_rows - 1) - pos
        (memmove dcol (pos + 1) pos len, memmove ncol (pos + 1) pos len)
      else (dcol, ncol)
    some (distances.setCol queryIndex (shifted.1.set pos distance),
          neighbors.setCol queryIndex (shifted.2.set pos neighbor))
  else none

/-- The `switch (hashType)` of both base cases: the metric applied to a query
point and a reference point. -/
def tempDistance {D : Type} [Zero D] (E : EuclideanDistance D) (self : lshModel D)
    (queryPoint referencePoint : List D) : D :=
  match self.hashType with
  | 1 => E.Evaluate queryPoint referencePoint
  | 2 => self.hash.cosineDistance queryPoint referencePoint
  | 3 => self.hash.angularDistance queryPoint referencePoint
  | _ => 0

/-- Base case for bichromatic search. -/
def BaseCase {D : Type} [Zero D] (P : SortPolicy D) (E : EuclideanDistance D)
    (self : lshModel D) (queryIndex referenceIndex : Nat) (querySet : Mat D)
    (neighbors : Mat Nat) (distances : Mat D) : Option (Mat Nat × Mat D) :=
  let distance :=
    tempDistance E self (querySet.col queryIndex) (self.referenceSet.col referenceIndex)
  let queryDist := distances.col queryIndex
  let queryIndices := neighbors.col queryIndex
  match P.SortDistance queryDist queryIndices distance with
  | none => some (neighbors, distances)
  | some insertPosition =>
    (InsertNeighbor distances neighbors queryIndex insertPosition referenceIndex distance).map
      (fun r => (r.2, r.1))

/-- Base case where the query set is the reference set. -/
def BaseCaseMonochromatic {D : Type} [Zero D] (P : SortPolicy D) (E : EuclideanDistance D)
    (self : lshModel D) (queryIndex referenceIndex : Nat)
    (neighbors : Mat Nat) (distances : Mat D) : Option (Mat Nat × Mat D) :=
  if queryIndex = referenceIndex then some (neighbors, distances)
  else
    let distance :=
      tempDistance E self (self.referenceSet.col queryIndex)
        (self.referenceSet.col referenceIndex)
    let queryDist := distances.col queryIndex
    let queryIndices := neighbors.col queryIndex
    match P.SortDistance queryDist queryIndices distance with
    | none => some (neighbors, distances)
    | some insertPosition =>
      (InsertNeighbor distances neighbors queryIndex insertPosition referenceIndex distance).map
        (fun r => (r.2, r.1))

/-- The value an unsigned sum has in `size_t` (64 bits): it wraps around. -/
def size_t (n : Nat) : Nat :=
  n % 2 ^ 64

/-- The inner loop `for j < refIndices.n_elem`: offer every candidate to the
base case; `none` as soon as one call leaves its buffers. -/
def candidateLoop {D : Type} (base : Nat → Mat Nat → Mat D → Option (Mat Nat × Mat D)) :
    List Nat → Mat Nat → Mat D → Option (Mat Nat × Mat D)
  | [], neighbors, distances => some (neighbors, distances)
  | j :: js, neighbors, distances =>
    match base j neighbors distances with
    | none => none
    | some r => candidateLoop base js r.1 r.2

/-- The variables the outer loop updates. -/
structure LoopState (D : Type) where
  resultingNeighbors : Mat Nat
  distances : Mat D
  avgIndicesReturned : Nat
  hashCalls : Nat

/-- The outer loop `for i < n_cols` of both overloads, over the query indices
still to do.  `point i` is the query column handed to the hash and `base i`
the base case of query `i`. -/
def queryLoop {D : Type} (self : lshModel D) (numTablesToSearch : Nat)
    (point : Nat → List D)
    (base : Nat → Nat → Mat Nat → Mat D → Option (Mat Nat × Mat D)) :
    List Nat → LoopState D → Option (LoopState D)
  | [], st => some st
  | i :: is, st =>
    let refIndices := ReturnIndicesFromTable self (point i) numTablesToSearch
    match candidateLoop (base i) refIndices st.resultingNeighbors st.distances with
    | none => none
    | some r =>
      queryLoop self numTablesToSearch point base is
        { resultingNeighbors := r.1
          distances := r.2
          avgIndicesReturned := size_t (st.avgIndicesReturned + refIndices.length)
          hashCalls := st.hashCalls + 1 }

/-- The code after the outer loop: add the candidate total to the counter,
then divide it by the number of queries for the log line.  When the loop left
its buffers (`looped = none`) only `outcome` is meaningful; the other fields
are then set to the state before the loop. -/
def finish {D : Type} (self : lshModel D) (numQueries : Nat)
    (looped : Option (LoopState D)) (neighbors0 : Mat Nat) (distances0 : Mat D) :
    SearchResult D :=
  match looped with
  | none =>
    { outcome := Outcome.undefined Fault.out_of_bounds
      model := self
      resultingNeighbors := neighbors0
      distances := distances0
      hashCalls := 0 }
  | some st =>
    { outcome :=
        if numQueries = 0 then Outcome.undefined Fault.division_by_zero
        else Outcome.returned
      model :=
        { self with
          distanceEvaluations := size_t (self.distanceEvaluations + st.avgIndicesReturned) }
      resultingNeighbors := st.resultingNeighbors
      distances := st.distances
      hashCalls := st.hashCalls }

/-- Bichromatic search: neighbours of every column of `querySet`. -/
def Search {D : Type} [Zero D] (P : SortPolicy D) (E : EuclideanDistance D)
    (self : lshModel D) (querySet : Mat D) (k : Nat)
    (resultingNeighbors : Mat Nat) (distances : Mat D) (numTablesToSearch : Nat) :
    SearchResult D :=
  if querySet.n_rows ≠ self.referenceSet.n_rows then
    { outcome := Outcome.invalid_argument
        (Message.dimension_mismatch querySet.n_rows self.referenceSet.n_rows)
      model := self
      resultingNeighbors := resultingNeighbors
      distances := distances
      hashCalls := 0 }
  else if k > self.referenceSet.n_cols then
    { outcome := Outcome.invalid_argument
        (Message.insufficient_data k self.referenceSet.n_cols)
      model := self
      resultingNeighbors := resultingNeighbors
      distances := distances
      hashCalls := 0 }
  else
    let resultingNeighbors := resultingNeighbors.set_size k querySet.n_cols
    let distances := distances.set_size k querySet.n_cols
    let distances := distances.fill P.WorstDistance
    let resultingNeighbors := resultingNeighbors.fill self.referenceSet.n_cols
    if k = 0 then
      { outcome := Outcome.returned
        model := self
        resultingNeighbors := resultingNeighbors
        distances := distances
        hashCalls := 0 }
    else
      finish self querySet.n_cols
        (queryLoop self numTablesToSearch (fun i => querySet.col i)
          (fun i j => BaseCase P E self i j querySet)
          (List.range querySet.n_cols)
          { resultingNeighbors := resultingNeighbors
            distances := distances
            avgIndicesReturned := 0
            hashCalls := 0 })
        resultingNeighbors distances

/-- Monochromatic search: the query set is the reference set. -/
def SearchMonochromatic {D : Type} [Zero D] (P : SortPolicy D) (E : EuclideanDistance D)
    (self : lshModel D) (k : Nat)
    (resultingNeighbors : Mat Nat) (distances : Mat D) (numTablesToSearch : Nat) :
    SearchResult D :=
  let resultingNeighbors := resultingNeighbors.set_size k self.referenceSet.n_cols
  let distances := distances.set_size k self.referenceSet.n_cols
  let distances := distances.fill P.WorstDistance
  let resultingNeighbors := resultingNeighbors.fill self.referenceSet.n_cols
  finish self self.referenceSet.n_cols
    (queryLoop self numTablesToSearch (fun i => self.referenceSet.col i)
      (fun i j => BaseCaseMonochromatic P E self i j)
      (List.range self.referenceSet.n_cols)
      { resultingNeighbors := resultingNeighbors
        distances := distances
        avgIndicesReturned := 0
        hashCalls := 0 })
    resultingNeighbors distances

/-! ## Vocabulary of the proofs -/

/-- The column after `InsertNeighbor` at an in-range `pos`: the slots before
`pos`, the new entry, then the old slots from `pos` on without the last. -/
def shiftInsert {α : Type} (c : List α) (pos : Nat) (x : α) : List α :=
  c.take pos ++ x :: (c.drop pos).take (c.length - 1 - pos)

/-- One base-case call seen on the result column of its query (`col.1` the
indices, `col.2` the distances). -/
def offer {D : Type} (P : SortPolicy D) (col : List Nat × List D) (j : Nat) (d : D) :
    List Nat × List D :=
  match P.SortDistance col.2 col.1 d with
  | none => col
  | some p => (shiftInsert col.1 p j, shiftInsert col.2 p d)

/-- Both result matrices are `k x n` and their stored columns have these
sizes. -/
def Shaped {D : Type} (k n : Nat) (neighbors : Mat Nat) (distances : Mat D) : Prop :=
  neighbors.WF ∧ distances.WF ∧ neighbors.n_rows = k ∧ distances.n_rows = k
    ∧ neighbors.n_cols = n ∧ distances.n_cols = n

/-- What one base-case call does to the result column of its query. -/
def BaseSpec {D : Type} (k n q : Nat)
    (base : Nat → Mat Nat → Mat D → Option (Mat Nat × Mat D))
    (step : List Nat × List D → Nat → List Nat × List D) : Prop :=
  ∀ (j : Nat) (nb : Mat Nat) (ds : Mat D), Shaped k n nb ds →
    ∃ nb2 ds2, base j nb ds = some (nb2, ds2) ∧ Shaped k n nb2 ds2
      ∧ (nb2.col q, ds2.col q) = step (nb.col q, ds.col q) j
      ∧ ∀ q2, q2 ≠ q → nb2.col q2 = nb.col q2 ∧ ds2.col q2 = ds.col q2

/-- On columns of `k` slots the policy answers do-not-insert or a position
below `k`. -/
def InRange {D : Type} (P : SortPolicy D) (k : Nat) : Prop :=
  ∀ (dl : List D) (il : List Nat) (d : D) (p : Nat),
    dl.length = k → il.length = k → P.SortDistance dl il d = some p → p < k

/-- The candidate fold of one bichromatic query on its result column. -/
def biStep {D : Type} [Zero D] (P : SortPolicy D) (E : EuclideanDistance D)
    (self : lshModel D) (querySet : Mat D) (q : Nat) :
    List Nat × List D → Nat → List Nat × List D :=
  fun col j => offer P col j (tempDistance E self (querySet.col q) (self.referenceSet.col j))

/-- The candidate fold of one monochromatic query on its result column. -/
def monoStep {D : Type} [Zero D] (P : SortPolicy D) (E : EuclideanDistance D)
    (self : lshModel D) (q : Nat) :
    List Nat × List D → Nat → List Nat × List D :=
  fun col j => if q = j then col else
    offer P col j (tempDistance E self (self.referenceSet.col q) (self.referenceSet.col j))

/-- Order of (index, distance) pairs by distance alone. -/
def byDistance {D : Type} [LinearOrder D] : Nat × D → Nat × D → Prop :=
  fun a b => a.2 ≤ b.2

instance byDistance_decidable {D : Type} [LinearOrder D] :
    DecidableRel (byDistance : Nat × D → Nat × D → Prop) :=
  fun a b => inferInstanceAs (Decidable (a.2 ≤ b.2))

instance byDistance_total {D : Type} [LinearOrder D] :
    IsTotal (Nat × D) byDistance :=
  ⟨fun a b => le_total a.2 b.2⟩

instance byDistance_trans {D : Type} [LinearOrder D] :
    IsTrans (Nat × D) byDistance :=
  ⟨fun _ _ _ h1 h2 => le_trans h1 h2⟩

/-- Ordered insertion of every pair of `xs` into `L`, in turn. -/
def insertAll {D : Type} [LinearOrder D] (L xs : List (Nat × D)) : List (Nat × D) :=
  xs.foldl (fun L x => List.orderedInsert byDistance x L) L

/-- Ordered insertion of every pair of `xs` into a column of `k` slots, cutting
back to `k` slots after each one. -/
def keepBest {D : Type} [LinearOrder D] (k : Nat) (pc xs : List (Nat × D)) :
    List (Nat × D) :=
  xs.foldl (fun pc x => (List.orderedInsert byDistance x pc).take k) pc

/-- Candidates of bichromatic query `q`. -/
def candidates {D : Type} (self : lshModel D) (querySet : Mat D) (t q : Nat) : List Nat :=
  ReturnIndicesFromTable self (querySet.col q) t

/-- Candidates of monochromatic query `q`, the query itself removed. -/
def candidatesMonochromatic {D : Type} (self : lshModel D) (t q : Nat) : List Nat :=
  (ReturnIndicesFromTable self (self.referenceSet.col q) t).filter (fun j => decide (j ≠ q))

/-- Distance from column `q` of `querySet` to reference point `j`, as the base
cases compute it. -/
def candidateDistance {D : Type} [Zero D] (E : EuclideanDistance D) (self : lshModel D)
    (querySet : Mat D) (q j : Nat) : D :=
  tempDistance E self (querySet.col q) (self.referenceSet.col j)

/-- The paired result column of query `q` after a nearest-first search. -/
def bestPairs {D : Type} [LinearOrder D] (W : D) (k N : Nat) (dist : Nat → D)
    (cands : List Nat) : List (Nat × D) :=
  keepBest k (List.replicate k (N, W)) (cands.map (fun j => (j, dist j)))

/-- Marks every reference point, for the worked instances. -/
def demoHash : hashModel Nat where
  hashQuery := fun _ _ v => v.map (fun _ => 1)
  cosineDistance := fun _ _ => 0
  angularDistance := fun _ _ => 0

/-- Distance of two points on a line, for the worked instances. -/
def demoMetric : EuclideanDistance Nat where
  Evaluate := fun q r => (q.headD 0 - r.headD 0) + (r.headD 0 - q.headD 0)

/-- An index over points on a line, for the worked instances. -/
def demoModel (pts : List Nat) : lshModel Nat where
  referenceSet := ⟨1, pts.length, pts.map (fun p => [p])⟩
  hash := demoHash
  hashType := 1
  secondHashSize := 99901
  bucketSize := 500
  numProj := 1
  numTables := 1
  hashWidth := 1
  numDimensions := 1
  numPlanes := 1
  ownsSet := false
  distanceEvaluations := 7
  shears := 1

/-- Two query points on a line. -/
def demoQueries : Mat Nat := ⟨1, 2, [[4], [8]]⟩

/-- An empty matrix (`arma::mat()`). -/
def emptyMat (α : Type) : Mat α := ⟨0, 0, []⟩

/-- A worked bichromatic search: two queries against three points, `k = 2`. -/
def demoSearch : SearchResult Nat :=
  Search (NearestNeighborSort 1000) demoMetric (demoModel [5, 1, 9]) demoQueries 2
    (emptyMat Nat) (emptyMat Nat) 0

/-- A worked monochromatic search over three points, `k = 2`. -/
def demoSearchMonochromatic : SearchResult Nat :=
  SearchMonochromatic (NearestNeighborSort 1000) demoMetric (demoModel [5, 1, 9]) 2
    (emptyMat Nat) (emptyMat Nat) 0

/-- A matrix of `rows x cols` whose stored columns have these sizes. -/
def HasShape {α : Type} (m : Mat α) (rows cols : Nat) : Prop :=
  m.n_rows = rows ∧ m.n_cols = cols ∧ m.WF

/-- A result column (`nc` the indices, `dc` the distances) of `k` slots made of
`min k c` candidate pairs, each a candidate index with its distance, followed
by `k - min k c` sentinel pairs (index `N`, distance `W`), where `c` is the
number of candidates. -/
def CandidatesThenSentinels {D : Type} (k N : Nat) (W : D) (dist : Nat → D)
    (cands : List Nat) (nc : List Nat) (dc : List D) : Prop :=
  ∃ kept : List (Nat × D), kept.length = min k cands.length
    ∧ (∀ x ∈ kept, x.1 ∈ cands ∧ x.2 = dist x.1)
    ∧ nc = kept.map Prod.fst ++ List.replicate (k - min k cands.length) N
    ∧ dc = kept.map Prod.snd ++ List.replicate (k - min k cands.length) W

/-- An index column whose entries are reference indices below `N` or the
sentinel `N`, with no non-sentinel index twice. -/
def ValidDistinct (N : Nat) (nc : List Nat) : Prop :=
  (∀ x ∈ nc, x < N ∨ x = N) ∧ (nc.filter (fun x => decide (x ≠ N))).Nodup

/-! ## Training and serialization -/

/-- The `double` operations of `Train`: `+=`, `std::sqrt` and `/= 25`.  No law
is assumed of them. -/
structure DoubleOps (D : Type) where
  add : D → D → D
  sqrt : D → D
  div : D → Nat → D

/-- The arguments `Train` hands to `hash.setParams`. -/
structure HashParams (D : Type) where
  referenceSet : Mat D
  hashType : Nat
  secondHashSize : Nat
  bucketSize : Nat
  numProj : Nat
  numTables : Nat
  hashWidth : D
  dimensions : Nat
  planes : Nat
  shears : Nat

/-- Everything a `Train` call leaves behind: the index, whether the set stored
before was deleted, and what `hash.setParams` was given. -/
structure TrainResult (D : Type) where
  model : lshModel D
  deleted : Bool
  setParams : HashParams D

/-- The loop `for i < 25` of `Train` followed by `hashWidth /= 25`.  `rand n`
is the value of the `n`-th call of `math::RandInt(referenceSet.n_cols)`. -/
def heuristicHashWidth {D : Type} (ops : DoubleOps D) (E : EuclideanDistance D)
    (rand : Nat → Nat) (referenceSet : Mat D) (hashWidth : D) : D :=
  ops.div
    ((List.range 25).foldl
      (fun hashWidth i =>
        let p1 := rand (2 * i)
        let p2 := rand (2 * i + 1)
        ops.add hashWidth (ops.sqrt (E.Evaluate (referenceSet.col p1) (referenceSet.col p2))))
      hashWidth)
    25

/-- Train the index on `referenceSet`.  `build` stands for `hash.setParams`
followed by `hash.BuildHash` (not among the source files).  The stored pointer
is not null in any state an index is left in by its constructors, `Train` or
`Serialize`, except inside the constructor that calls `Train` at once with
`ownsSet = false`; so the test `this->referenceSet && ownsSet` is
`ownsSet`. -/
def Train {D : Type} [Zero D] [DecidableEq D] (ops : DoubleOps D) (E : EuclideanDistance D)
    (build : HashParams D → hashModel D) (rand : Nat → Nat) (self : lshModel D)
    (referenceSet : Mat D) (hashType secondHashSize bucketSize numProj numTables : Nat)
    (hashWidth : D) (dimensions planes shears : Nat) : TrainResult D :=
  let deleted := self.ownsSet
  let hashWidth :=
    if hashType = 1 then
      if hashWidth = 0 then heuristicHashWidth ops E rand referenceSet hashWidth
      else hashWidth
    else hashWidth
  let params : HashParams D :=
    { referenceSet := referenceSet
      hashType := hashType
      secondHashSize := secondHashSize
      bucketSize := bucketSize
      numProj := numProj
      numTables := numTables
      hashWidth := hashWidth
      dimensions := dimensions
      planes := planes
      shears := shears }
  { model :=
      { referenceSet := referenceSet
        hash := build params
        hashType := hashType
        secondHashSize := secondHashSize
        bucketSize := bucketSize
        numProj := numProj
        numTables := numTables
        hashWidth := hashWidth
        numDimensions := dimensions
        numPlanes := planes
        ownsSet := false
        distanceEvaluations := self.distanceEvaluations
        shears := shears }
    deleted := deleted
    setParams := params }

/-- The empty constructor `lshModel()`; `hash0` is the default-constructed
`hashModel`. -/
def lshModel.empty {D : Type} [Zero D] (hash0 : hashModel D) : lshModel D :=
  { referenceSet := { n_rows := 0, n_cols := 0, mem := [] }
    hash := hash0
    hashType := 1
    secondHashSize := 99901
    bucketSize := 500
    numProj := 0
    numTables := 0
    hashWidth := 0
    numDimensions := 1
    numPlanes := 1
    ownsSet := true
    distanceEvaluations := 0
    shears := 1 }

/-- The named fields of an archive, with load/save symmetry: what is saved
under a name is what is loaded under it. -/
structure Archive (D : Type) where
  referenceSet : Mat D
  hash : hashModel D
  hashType : Nat
  secondHashSize : Nat
  bucketSize : Nat
  numProj : Nat
  numTables : Nat
  hashWidth : D
  numDimensions : Nat
  numPlanes : Nat
  distanceEvaluations : Nat
  shears : Nat

/-- Everything a `Serialize` call leaves behind: the index, the archive and
whether the set stored before was deleted. -/
structure SerializeResult (D : Type) where
  model : lshModel D
  archive : Archive D
  deleted : Bool

/-- Save the index to the archive or load it from the archive
(`Archive::is_loading::value`). -/
def Serialize {D : Type} (is_loading : Bool) (self : lshModel D) (ar : Archive D) :
    SerializeResult D :=
  if is_loading then
    { model :=
        { referenceSet := ar.referenceSet
          hash := ar.hash
          hashType := ar.hashType
          secondHashSize := ar.secondHashSize
          bucketSize := ar.bucketSize
          numProj := ar.numProj
          numTables := ar.numTables
          hashWidth := ar.hashWidth
          numDimensions := ar.numDimensions
          numPlanes := ar.numPlanes
          ownsSet := true
          distanceEvaluations := ar.distanceEvaluations
          shears := ar.shears }
      archive := ar
      deleted := self.ownsSet }
  else
    { model := self
      archive :=
        { referenceSet := self.referenceSet
          hash := self.hash
          hashType := self.hashType
          secondHashSize := self.secondHashSize
          bucketSize := self.bucketSize
          numProj := self.numProj
          numTables := self.numTables
          hashWidth := self.hashWidth
          numDimensions := self.numDimensions
          numPlanes := self.numPlanes
          distanceEvaluations := self.distanceEvaluations
          shears := self.shears }
      deleted := false }

/-- Square root on the worked instances: the largest `r` with `r * r <= x`,
exact on perfect squares. -/
def demoSqrt (x : Nat) : Nat :=
  ((List.range (x + 1)).filter (fun r => decide (r * r ≤ x))).length - 1

/-- The `double` operations on the worked instances, where every value is a
natural number and every sum, root and quotient that occurs is exact. -/
def demoOps : DoubleOps Nat where
  add := fun a b => a + b
  sqrt := demoSqrt
  div := fun a n => a / n

/-- The partial form of `BaseSpec`: what a base-case call that does not leave
its buffers does to the result column of its query. -/
def BaseSpecReturned {D : Type} (k n q : Nat)
    (base : Nat → Mat Nat → Mat D → Option (Mat Nat × Mat D))
    (step : List Nat × List D → Nat → List Nat × List D) : Prop :=
  ∀ (j : Nat) (nb : Mat Nat) (ds : Mat D) (nb2 : Mat Nat) (ds2 : Mat D),
    Shaped k n nb ds → base j nb ds = some (nb2, ds2) →
    Shaped k n nb2 ds2
      ∧ (nb2.col q, ds2.col q) = step (nb.col q, ds.col q) j
      ∧ ∀ q2, q2 ≠ q → nb2.col q2 = nb.col q2 ∧ ds2.col q2 = ds.col q2

/-- The index obtained by saving `self` to an archive and loading that archive
into a freshly constructed index. -/
def roundTrip {D : Type} [Zero D] (hash0 : hashModel D) (self : lshModel D)
    (ar : Archive D) : lshModel D :=
  (Serialize true (lshModel.empty hash0) (Serialize false self ar).archive).model

/-- The trained state of `after` is that of `before`: the same reference set,
hash state, ownership flag and scalar parameters; only the
distance-evaluation counter may differ. -/
def SameTrainedState {D : Type} (before after : lshModel D) : Prop :=
  after.referenceSet = before.referenceSet
    ∧ after.hash = before.hash
    ∧ after.ownsSet = before.ownsSet
    ∧ after.hashType = before.hashType
    ∧ after.secondHashSize = before.secondHashSize
    ∧ after.bucketSize = before.bucketSize
    ∧ after.numProj = before.numProj
    ∧ after.numTables = before.numTables
    ∧ after.hashWidth = before.hashWidth
    ∧ after.numDimensions = before.numDimensions
    ∧ after.numPlanes = before.numPlanes
    ∧ after.shears = before.shears

/-! ## Lemmas and theorems -/

theorem size_t_size_t_add (a b : Nat) : size_t (size_t a + b) = size_t (a + b) := by
  simp [size_t, Nat.add_mod]

theorem size_t_add_size_t (a b : Nat) : size_t (a + size_t b) = size_t (a + b) := by
  simp [size_t, Nat.add_mod]

theorem shiftInsert_length {α : Type} (c : List α) (pos : Nat) (x : α) (h : pos < c.length) :
    (shiftInsert c pos x).length = c.length := by
  simp [shiftInsert]
  omega

theorem memmove_set {α : Type} (c : List α) (pos : Nat) (x : α) (h : pos < c.length) :
    ((if pos < c.length - 1 then memmove c (pos + 1) pos (c.length - 1 - pos) else c).set pos x)
      = shiftInsert c pos x := by
  by_cases h1 : pos < c.length - 1
  · simp only [h1, if_true, memmove, shiftInsert]
    have e : pos + 1 + (c.length - 1 - pos) = c.length := by omega
    rw [e, List.drop_length, List.append_nil]
    have e2 : List.take (pos + 1) c = List.take pos c ++ [c.get ⟨pos, h⟩] := by
      rw [List.take_succ]
      simp [List.getElem?_eq_getElem h]
    rw [e2, List.append_assoc]
    have e3 : (List.take pos c).length = pos := by simp; omega
    rw [List.set_append_right _ _ (by omega)]
    simp [e3]
  · simp only [h1, if_false, shiftInsert]
    have e : c.length - 1 - pos = 0 := by omega
    have e4 : pos = c.length - 1 := by omega
    rw [e, List.take_zero]
    conv_lhs => rw [← List.take_append_drop pos c]
    have e3 : (List.take pos c).length = pos := by simp; omega
    rw [List.set_append_right _ _ (by omega)]
    simp only [e3, Nat.sub_self]
    have : (List.drop pos c).length = 1 := by simp; omega
    match hd : List.drop pos c, this with
    | [y], _ => simp

theorem Mat.col_setCol_same {α : Type} (m : Mat α) (q : Nat) (c : List α)
    (h : q < m.mem.length) : (m.setCol q c).col q = c := by
  simp [Mat.col, Mat.setCol, List.getD_eq_getElem?_getD, List.getElem?_set, h]

theorem Mat.col_setCol_other {α : Type} (m : Mat α) (q q2 : Nat) (c : List α)
    (h : q2 ≠ q) : (m.setCol q c).col q2 = m.col q2 := by
  simp [Mat.col, Mat.setCol, List.getD_eq_getElem?_getD, List.getElem?_set, Ne.symm h]

theorem Mat.WF_setCol {α : Type} (m : Mat α) (q : Nat) (c : List α) (hm : m.WF)
    (hc : c.length = m.n_rows) : (m.setCol q c).WF := by
  refine ⟨by simpa [Mat.setCol] using hm.1, ?_⟩
  intro c2 hc2
  simp only [Mat.setCol] at hc2 ⊢
  rcases List.mem_or_eq_of_mem_set hc2 with h | h
  · exact hm.2 c2 h
  · rw [h]; exact hc

theorem Mat.col_length {α : Type} (m : Mat α) (q : Nat) (hm : m.WF) (hq : q < m.n_cols) :
    (m.col q).length = m.n_rows := by
  have hq2 : q < m.mem.length := by rw [hm.1]; exact hq
  have : m.col q = m.mem.get ⟨q, hq2⟩ := by
    simp [Mat.col, List.getD_eq_getElem?_getD, List.getElem?_eq_getElem hq2]
  rw [this]
  exact hm.2 _ (List.get_mem _ _ _)

theorem Mat.WF_fill {α : Type} (m : Mat α) (v : α) : (m.fill v).WF := by
  refine ⟨by simp [Mat.fill], ?_⟩
  intro c hc
  simp only [Mat.fill] at hc ⊢
  rw [List.eq_of_mem_replicate hc]
  simp

theorem Mat.col_fill {α : Type} (m : Mat α) (v : α) (q : Nat) (hq : q < m.n_cols) :
    (m.fill v).col q = List.replicate m.n_rows v := by
  simp [Mat.col, Mat.fill, List.getD_eq_getElem?_getD, List.getElem?_replicate, hq]

theorem InsertNeighbor_spec {D : Type} (k n q pos j : Nat) (x : D) (nb : Mat Nat) (ds : Mat D)
    (hs : Shaped k n nb ds) (hpos : pos < k) (hq : q < n) :
    ∃ ds2 nb2, InsertNeighbor ds nb q pos j x = some (ds2, nb2) ∧ Shaped k n nb2 ds2
      ∧ nb2.col q = shiftInsert (nb.col q) pos j
      ∧ ds2.col q = shiftInsert (ds.col q) pos x
      ∧ ∀ q2, q2 ≠ q → nb2.col q2 = nb.col q2 ∧ ds2.col q2 = ds.col q2 := by
  obtain ⟨hn, hd, hnr, hdr, hnc, hdc⟩ := hs
  have hdl : (ds.col q).length = k := by rw [Mat.col_length ds q hd (by omega), hdr]
  have hnl : (nb.col q).length = k := by rw [Mat.col_length nb q hn (by omega), hnr]
  have hg : pos < ds.n_rows ∧ pos < nb.n_rows ∧ q < ds.n_cols ∧ q < nb.n_cols := by
    refine ⟨?_, ?_, ?_, ?_⟩ <;> omega
  have e1 := memmove_set (ds.col q) pos x (by omega)
  have e2 := memmove_set (nb.col q) pos j (by omega)
  rw [hdl] at e1
  rw [hnl] at e2
  refine ⟨ds.setCol q (shiftInsert (ds.col q) pos x),
    nb.setCol q (shiftInsert (nb.col q) pos j), ?_, ?_, ?_, ?_, ?_⟩
  · unfold InsertNeighbor
    rw [if_pos hg]
    simp only [hdr]
    by_cases h1 : pos < k - 1
    · simp only [h1, if_true] at e1 e2 ⊢
      rw [e1, e2]
    · simp only [h1, if_false] at e1 e2 ⊢
      rw [e1, e2]
  · refine ⟨Mat.WF_setCol _ _ _ hn ?_, Mat.WF_setCol _ _ _ hd ?_, ?_, ?_, ?_, ?_⟩
    · rw [shiftInsert_length _ _ _ (by omega), hnl, hnr]
    · rw [shiftInsert_length _ _ _ (by omega), hdl, hdr]
    · simpa [Mat.setCol] using hnr
    · simpa [Mat.setCol] using hdr
    · simpa [Mat.setCol] using hnc
    · simpa [Mat.setCol] using hdc
  · exact Mat.col_setCol_same _ _ _ (by rw [hn.1]; omega)
  · exact Mat.col_setCol_same _ _ _ (by rw [hd.1]; omega)
  · intro q2 hq2
    exact ⟨Mat.col_setCol_other _ _ _ _ hq2, Mat.col_setCol_other _ _ _ _ hq2⟩

theorem offer_spec {D : Type} (P : SortPolicy D) (k n q j : Nat) (x : D)
    (hP : InRange P k) (hq : q < n) (nb : Mat Nat) (ds : Mat D) (hs : Shaped k n nb ds) :
    ∃ nb2 ds2,
      (match P.SortDistance (ds.col q) (nb.col q) x with
        | none => some (nb, ds)
        | some insertPosition =>
          (InsertNeighbor ds nb q insertPosition j x).map (fun r => (r.2, r.1)))
        = some (nb2, ds2) ∧ Shaped k n nb2 ds2
      ∧ (nb2.col q, ds2.col q) = offer P (nb.col q, ds.col q) j x
      ∧ ∀ q2, q2 ≠ q → nb2.col q2 = nb.col q2 ∧ ds2.col q2 = ds.col q2 := by
  have hdl : (ds.col q).length = k := by
    rw [Mat.col_length ds q hs.2.1 (by have := hs.2.2.2.2.2; omega), hs.2.2.2.1]
  have hnl : (nb.col q).length = k := by
    rw [Mat.col_length nb q hs.1 (by have := hs.2.2.2.2.1; omega), hs.2.2.1]
  unfold offer
  cases hp : P.SortDistance (ds.col q) (nb.col q) x with
  | none => exact ⟨nb, ds, rfl, hs, rfl, fun _ _ => ⟨rfl, rfl⟩⟩
  | some p =>
    have hpk : p < k := hP _ _ _ _ hdl hnl hp
    obtain ⟨ds2, nb2, he, hs2, hc1, hc2, ho⟩ := InsertNeighbor_spec k n q p j x nb ds hs hpk hq
    refine ⟨nb2, ds2, ?_, hs2, ?_, ho⟩
    · simp [he]
    · simp [hc1, hc2]

theorem BaseCase_spec {D : Type} [Zero D] (P : SortPolicy D) (E : EuclideanDistance D)
    (self : lshModel D) (querySet : Mat D) (k n q : Nat) (hP : InRange P k) (hq : q < n) :
    BaseSpec k n q (fun j => BaseCase P E self q j querySet)
      (fun col j => offer P col j
        (tempDistance E self (querySet.col q) (self.referenceSet.col j))) := by
  intro j nb ds hs
  exact offer_spec P k n q j _ hP hq nb ds hs

theorem BaseCaseMonochromatic_spec {D : Type} [Zero D] (P : SortPolicy D)
    (E : EuclideanDistance D) (self : lshModel D) (k n q : Nat) (hP : InRange P k)
    (hq : q < n) :
    BaseSpec k n q (fun j => BaseCaseMonochromatic P E self q j)
      (fun col j => if q = j then col else offer P col j
        (tempDistance E self (self.referenceSet.col q) (self.referenceSet.col j))) := by
  intro j nb ds hs
  by_cases hqj : q = j
  · refine ⟨nb, ds, ?_, hs, ?_, fun _ _ => ⟨rfl, rfl⟩⟩
    · simp [BaseCaseMonochromatic, hqj]
    · simp [hqj]
  · simp only [BaseCaseMonochromatic, hqj, if_false]
    exact offer_spec P k n q j _ hP hq nb ds hs

theorem candidateLoop_spec {D : Type} (k n q : Nat)
    (base : Nat → Mat Nat → Mat D → Option (Mat Nat × Mat D))
    (step : List Nat × List D → Nat → List Nat × List D) (hb : BaseSpec k n q base step) :
    ∀ (js : List Nat) (nb : Mat Nat) (ds : Mat D), Shaped k n nb ds →
      ∃ nb2 ds2, candidateLoop base js nb ds = some (nb2, ds2) ∧ Shaped k n nb2 ds2
        ∧ (nb2.col q, ds2.col q) = js.foldl step (nb.col q, ds.col q)
        ∧ ∀ q2, q2 ≠ q → nb2.col q2 = nb.col q2 ∧ ds2.col q2 = ds.col q2 := by
  intro js
  induction js with
  | nil =>
    intro nb ds hs
    exact ⟨nb, ds, rfl, hs, rfl, fun _ _ => ⟨rfl, rfl⟩⟩
  | cons j js ih =>
    intro nb ds hs
    obtain ⟨nb1, ds1, he1, hs1, hc1, ho1⟩ := hb j nb ds hs
    obtain ⟨nb2, ds2, he2, hs2, hc2, ho2⟩ := ih nb1 ds1 hs1
    refine ⟨nb2, ds2, ?_, hs2, ?_, ?_⟩
    · simp [candidateLoop, he1, he2]
    · rw [hc2, hc1]; rfl
    · intro q2 hq2
      exact ⟨(ho2 q2 hq2).1.trans (ho1 q2 hq2).1, (ho2 q2 hq2).2.trans (ho1 q2 hq2).2⟩

theorem queryLoop_spec {D : Type} (self : lshModel D) (t k n : Nat) (point : Nat → List D)
    (base : Nat → Nat → Mat Nat → Mat D → Option (Mat Nat × Mat D))
    (step : Nat → List Nat × List D → Nat → List Nat × List D)
    (hb : ∀ q, q < n → BaseSpec k n q (base q) (step q)) :
    ∀ (qs : List Nat) (st : LoopState D), (∀ q ∈ qs, q < n) → qs.Nodup →
      Shaped k n st.resultingNeighbors st.distances →
      ∃ st2, queryLoop self t point base qs st = some st2
        ∧ Shaped k n st2.resultingNeighbors st2.distances
        ∧ (∀ q ∈ qs, (st2.resultingNeighbors.col q, st2.distances.col q)
            = (ReturnIndicesFromTable self (point q) t).foldl (step q)
                (st.resultingNeighbors.col q, st.distances.col q))
        ∧ (∀ q, q ∉ qs → st2.resultingNeighbors.col q = st.resultingNeighbors.col q
            ∧ st2.distances.col q = st.distances.col q)
        ∧ size_t st2.avgIndicesReturned = size_t (st.avgIndicesReturned
            + (qs.map (fun i => (ReturnIndicesFromTable self (point i) t).length)).sum)
        ∧ st2.hashCalls = st.hashCalls + qs.length := by
  intro qs
  induction qs with
  | nil =>
    intro st _ _ hs
    exact ⟨st, rfl, hs, by simp, fun _ _ => ⟨rfl, rfl⟩, by simp, by simp⟩
  | cons i is ih =>
    intro st hlt hnd hs
    have hi : i < n := hlt i (List.mem_cons_self _ _)
    obtain ⟨hni, hnd2⟩ := List.nodup_cons.mp hnd
    obtain ⟨nb1, ds1, he1, hs1, hc1, ho1⟩ :=
      candidateLoop_spec k n i (base i) (step i) (hb i hi)
        (ReturnIndicesFromTable self (point i) t) st.resultingNeighbors st.distances hs
    obtain ⟨st2, he2, hs2, hc2, ho2, ha2, hh2⟩ :=
      ih { resultingNeighbors := nb1
           distances := ds1
           avgIndicesReturned := size_t (st.avgIndicesReturned
              + (ReturnIndicesFromTable self (point i) t).length)
           hashCalls := st.hashCalls + 1 }
        (fun q hq => hlt q (List.mem_cons_of_mem _ hq)) hnd2 hs1
    refine ⟨st2, ?_, hs2, ?_, ?_, ?_, ?_⟩
    · simp only [queryLoop, he1]
      exact he2
    · intro q hq
      rcases List.mem_cons.mp hq with h | h
      · subst h
        have := ho2 q hni
        simp only at this
        rw [this.1, this.2, hc1]
      · have hqi : q ≠ i := fun e => hni (e ▸ h)
        rw [hc2 q h]
        simp only
        rw [(ho1 q hqi).1, (ho1 q hqi).2]
    · intro q hq
      have hqi : q ≠ i := fun e => hq (e ▸ List.mem_cons_self _ _)
      have hq2 : q ∉ is := fun e => hq (List.mem_cons_of_mem _ e)
      have := ho2 q hq2
      simp only at this
      exact ⟨this.1.trans (ho1 q hqi).1, this.2.trans (ho1 q hqi).2⟩
    · rw [ha2, size_t_size_t_add]
      simp only [List.map_cons, List.sum_cons, Nat.add_assoc]
    · rw [hh2]
      simp only [List.length_cons]
      omega

/-- The two output matrices right after `set_size` and `fill`. -/
theorem Shaped_fill {D : Type} (k n N : Nat) (W : D) (rn : Mat Nat) (ds : Mat D) :
    Shaped k n ((rn.set_size k n).fill N) ((ds.set_size k n).fill W) :=
  ⟨Mat.WF_fill _ _, Mat.WF_fill _ _, rfl, rfl, rfl, rfl⟩

theorem Search_preconditions {D : Type} [Zero D] (P : SortPolicy D) (E : EuclideanDistance D)
    (self : lshModel D) (querySet : Mat D) (k : Nat) (rn : Mat Nat) (ds : Mat D) (t : Nat)
    (h : (Search P E self querySet k rn ds t).outcome = Outcome.returned) :
    querySet.n_rows = self.referenceSet.n_rows ∧ k ≤ self.referenceSet.n_cols := by
  by_cases h1 : querySet.n_rows = self.referenceSet.n_rows
  · by_cases h2 : k ≤ self.referenceSet.n_cols
    · exact ⟨h1, h2⟩
    · have h3 : k > self.referenceSet.n_cols := by omega
      simp [Search, h1, h3] at h
  · simp [Search, h1] at h

theorem Search_spec {D : Type} [Zero D] (P : SortPolicy D) (E : EuclideanDistance D)
    (self : lshModel D) (querySet : Mat D) (k : Nat) (rn : Mat Nat) (ds : Mat D) (t : Nat)
    (hrows : querySet.n_rows = self.referenceSet.n_rows)
    (hkN : k ≤ self.referenceSet.n_cols) (hk : 1 ≤ k) (hP : InRange P k)
    (hn : 0 < querySet.n_cols) :
    (Search P E self querySet k rn ds t).outcome = Outcome.returned
      ∧ Shaped k querySet.n_cols (Search P E self querySet k rn ds t).resultingNeighbors
          (Search P E self querySet k rn ds t).distances
      ∧ (∀ q, q < querySet.n_cols →
          ((Search P E self querySet k rn ds t).resultingNeighbors.col q,
            (Search P E self querySet k rn ds t).distances.col q)
          = (ReturnIndicesFromTable self (querySet.col q) t).foldl
              (biStep P E self querySet q)
              (List.replicate k self.referenceSet.n_cols, List.replicate k P.WorstDistance))
      ∧ (Search P E self querySet k rn ds t).model.distanceEvaluations
          = size_t (self.distanceEvaluations + ((List.range querySet.n_cols).map
              (fun i => (ReturnIndicesFromTable self (querySet.col i) t).length)).sum)
      ∧ (Search P E self querySet k rn ds t).hashCalls = querySet.n_cols := by
  have hs0 := Shaped_fill k querySet.n_cols self.referenceSet.n_cols P.WorstDistance rn ds
  obtain ⟨st2, he, hs2, hc, _, ha, hh⟩ :=
    queryLoop_spec self t k querySet.n_cols (fun i => querySet.col i)
      (fun i j => BaseCase P E self i j querySet) (biStep P E self querySet)
      (fun q hq => BaseCase_spec P E self querySet k querySet.n_cols q hP hq)
      (List.range querySet.n_cols)
      { resultingNeighbors := (rn.set_size k querySet.n_cols).fill self.referenceSet.n_cols
        distances := (ds.set_size k querySet.n_cols).fill P.WorstDistance
        avgIndicesReturned := 0
        hashCalls := 0 }
      (fun q hq => List.mem_range.mp hq) (List.nodup_range _) hs0
  have hk0 : ¬ k = 0 := by omega
  have hkN2 : ¬ k > self.referenceSet.n_cols := by omega
  have hn0 : ¬ querySet.n_cols = 0 := by omega
  have hS : Search P E self querySet k rn ds t =
      finish self querySet.n_cols (some st2)
        ((rn.set_size k querySet.n_cols).fill self.referenceSet.n_cols)
        ((ds.set_size k querySet.n_cols).fill P.WorstDistance) := by
    simp only [Search, hrows, ne_eq, not_true_eq_false, if_false, hkN2, hk0]
    rw [he]
  rw [hS]
  simp only [finish, hn0, if_false]
  refine ⟨trivial, hs2, ?_, ?_, ?_⟩
  · intro q hq
    rw [hc q (List.mem_range.mpr hq)]
    simp only
    rw [Mat.col_fill (rn.set_size k querySet.n_cols) _ q hq,
      Mat.col_fill (ds.set_size k querySet.n_cols) _ q hq]
    rfl
  · rw [← size_t_add_size_t, ha, size_t_add_size_t]; simp
  · rw [hh]; simp

theorem SearchMonochromatic_spec {D : Type} [Zero D] (P : SortPolicy D)
    (E : EuclideanDistance D) (self : lshModel D) (k : Nat) (rn : Mat Nat) (ds : Mat D)
    (t : Nat) (hP : InRange P k) (hn : 0 < self.referenceSet.n_cols) :
    (SearchMonochromatic P E self k rn ds t).outcome = Outcome.returned
      ∧ Shaped k self.referenceSet.n_cols (SearchMonochromatic P E self k rn ds t).resultingNeighbors
          (SearchMonochromatic P E self k rn ds t).distances
      ∧ (∀ q, q < self.referenceSet.n_cols →
          ((SearchMonochromatic P E self k rn ds t).resultingNeighbors.col q,
            (SearchMonochromatic P E self k rn ds t).distances.col q)
          = (ReturnIndicesFromTable self (self.referenceSet.col q) t).foldl
              (monoStep P E self q)
              (List.replicate k self.referenceSet.n_cols, List.replicate k P.WorstDistance))
      ∧ (SearchMonochromatic P E self k rn ds t).model.distanceEvaluations
          = size_t (self.distanceEvaluations + ((List.range self.referenceSet.n_cols).map
              (fun i => (ReturnIndicesFromTable self (self.referenceSet.col i) t).length)).sum)
      ∧ (SearchMonochromatic P E self k rn ds t).hashCalls = self.referenceSet.n_cols := by
  have hs0 := Shaped_fill k self.referenceSet.n_cols self.referenceSet.n_cols
    P.WorstDistance rn ds
  obtain ⟨st2, he, hs2, hc, _, ha, hh⟩ :=
    queryLoop_spec self t k self.referenceSet.n_cols (fun i => self.referenceSet.col i)
      (fun i j => BaseCaseMonochromatic P E self i j) (monoStep P E self)
      (fun q hq => BaseCaseMonochromatic_spec P E self k self.referenceSet.n_cols q hP hq)
      (List.range self.referenceSet.n_cols)
      { resultingNeighbors :=
          (rn.set_size k self.referenceSet.n_cols).fill self.referenceSet.n_cols
        distances := (ds.set_size k self.referenceSet.n_cols).fill P.WorstDistance
        avgIndicesReturned := 0
        hashCalls := 0 }
      (fun q hq => List.mem_range.mp hq) (List.nodup_range _) hs0
  have hn0 : ¬ self.referenceSet.n_cols = 0 := by omega
  have hS : SearchMonochromatic P E self k rn ds t =
      finish self self.referenceSet.n_cols (some st2)
        ((rn.set_size k self.referenceSet.n_cols).fill self.referenceSet.n_cols)
        ((ds.set_size k self.referenceSet.n_cols).fill P.WorstDistance) := by
    simp only [SearchMonochromatic]
    rw [he]
  rw [hS]
  simp only [finish, hn0, if_false]
  refine ⟨trivial, hs2, ?_, ?_, ?_⟩
  · intro q hq
    rw [hc q (List.mem_range.mpr hq)]
    simp only
    rw [Mat.col_fill (rn.set_size k self.referenceSet.n_cols) _ q hq,
      Mat.col_fill (ds.set_size k self.referenceSet.n_cols) _ q hq]
    rfl
  · rw [← size_t_add_size_t, ha, size_t_add_size_t]; simp
  · rw [hh]; simp

theorem firstNotSmaller_none {D : Type} [LinearOrder D] (d : D) :
    ∀ (pc : List (Nat × D)) (j : Nat), firstNotSmaller d (pc.map Prod.snd) = none →
      List.orderedInsert byDistance (j, d) pc = pc ++ [(j, d)] := by
  intro pc
  induction pc with
  | nil => intro j _; rfl
  | cons b pc ih =>
    intro j h
    simp only [List.map_cons, firstNotSmaller] at h
    by_cases hb : d ≤ b.2
    · simp [hb] at h
    · simp only [hb, if_false, Option.map_eq_none'] at h
      have hb2 : ¬ byDistance (j, d) b := hb
      simp only [List.orderedInsert, hb2, if_false, List.cons_append]
      rw [ih j h]

theorem firstNotSmaller_some {D : Type} [LinearOrder D] (d : D) :
    ∀ (pc : List (Nat × D)) (j p : Nat), firstNotSmaller d (pc.map Prod.snd) = some p →
      p < pc.length
        ∧ List.orderedInsert byDistance (j, d) pc = pc.take p ++ (j, d) :: pc.drop p := by
  intro pc
  induction pc with
  | nil => intro j p h; simp [firstNotSmaller] at h
  | cons b pc ih =>
    intro j p h
    simp only [List.map_cons, firstNotSmaller] at h
    by_cases hb : d ≤ b.2
    · simp only [hb, if_true, Option.some.injEq] at h
      subst h
      have hb2 : byDistance (j, d) b := hb
      simp [List.orderedInsert, hb2]
    · simp only [hb, if_false, Option.map_eq_some'] at h
      obtain ⟨p2, hp2, rfl⟩ := h
      have hb2 : ¬ byDistance (j, d) b := hb
      obtain ⟨h1, h2⟩ := ih j p2 hp2
      refine ⟨by simp; omega, ?_⟩
      simp only [List.orderedInsert, hb2, if_false, List.take_succ_cons, List.drop_succ_cons,
        List.cons_append]
      rw [h2]

theorem firstNotSmaller_eq_none_iff {D : Type} [LinearOrder D] (d : D) :
    ∀ (l : List D), firstNotSmaller d l = none ↔ ∀ x ∈ l, ¬ d ≤ x := by
  intro l
  induction l with
  | nil => simp [firstNotSmaller]
  | cons b l ih =>
    by_cases hb : d ≤ b
    · simp [firstNotSmaller, hb]
    · simp only [firstNotSmaller, hb, if_false, Option.map_eq_none', ih, List.mem_cons,
        forall_eq_or_imp, not_false_eq_true, true_and]

theorem sorted_le_getLast {D : Type} [LinearOrder D] :
    ∀ (l : List D), l.Sorted (fun a b => a ≤ b) → ∀ x ∈ l, ∀ last,
      l.getLast? = some last → x ≤ last := by
  intro l
  induction l with
  | nil => intro _ x hx; simp at hx
  | cons a l ih =>
    intro hs x hx last hl
    cases l with
    | nil =>
      simp at hx hl
      rw [hx, hl]
    | cons b l2 =>
      have hs2 := List.sorted_cons.mp hs
      rw [List.getLast?_cons_cons] at hl
      rcases List.mem_cons.mp hx with h | h
      · have hb : b ≤ last := ih hs2.2 b (List.mem_cons_self _ _) last hl
        rw [h]
        exact le_trans (hs2.1 b (List.mem_cons_self _ _)) hb
      · exact ih hs2.2 x h last hl

theorem shiftInsert_map {α β : Type} (f : α → β) (c : List α) (p : Nat) (x : α) :
    (shiftInsert c p x).map f = shiftInsert (c.map f) p (f x) := by
  simp [shiftInsert, List.map_take, List.map_drop]

theorem take_orderedInsert_of_pos {α : Type} (c : List α) (p : Nat) (x : α)
    (hp : p < c.length) :
    (c.take p ++ x :: c.drop p).take c.length = shiftInsert c p x := by
  unfold shiftInsert
  rw [List.take_append_eq_append_take]
  have e : (List.take p c).length = p := by simp; omega
  rw [e, List.take_of_length_le (by simp)]
  have e2 : c.length - p = (c.length - 1 - p) + 1 := by omega
  rw [e2, List.take_succ_cons]

/-- On a column sorted by distance the nearest-first policy inserts exactly as
an ordered insertion followed by cutting back to `k` slots. -/
theorem nearest_offer {D : Type} [LinearOrder D] (W : D) (pc : List (Nat × D)) (j : Nat)
    (d : D) (hpos : 1 ≤ pc.length) (hsorted : pc.Sorted byDistance) :
    offer (NearestNeighborSort W) (pc.map Prod.fst, pc.map Prod.snd) j d
      = (((List.orderedInsert byDistance (j, d) pc).take pc.length).map Prod.fst,
          ((List.orderedInsert byDistance (j, d) pc).take pc.length).map Prod.snd) := by
  have hne : pc ≠ [] := by
    intro h; rw [h] at hpos; simp at hpos
  have hlast : (pc.map Prod.snd).getLast? = some (pc.getLast hne).2 := by
    rw [List.getLast?_map, List.getLast?_eq_getLast _ hne]
    rfl
  unfold offer
  simp only [NearestNeighborSort, hlast]
  by_cases hgt : d > (pc.getLast hne).2
  · simp only [hgt, if_true]
    have hsd : (pc.map Prod.snd).Sorted (fun a b => a ≤ b) :=
      List.pairwise_map.mpr hsorted
    have hall : ∀ x ∈ pc.map Prod.snd, ¬ d ≤ x := by
      intro x hx
      have := sorted_le_getLast _ hsd x hx _ hlast
      exact not_le.mpr (lt_of_le_of_lt this hgt)
    have hnone := (firstNotSmaller_eq_none_iff d _).mpr hall
    rw [firstNotSmaller_none d pc j hnone]
    simp
  · simp only [hgt, if_false]
    have hle : d ≤ (pc.getLast hne).2 := not_lt.mp hgt
    cases hf : firstNotSmaller d (pc.map Prod.snd) with
    | none =>
      exfalso
      have := (firstNotSmaller_eq_none_iff d _).mp hf (pc.getLast hne).2
        (List.mem_map.mpr ⟨_, List.getLast_mem hne, rfl⟩)
      exact this hle
    | some p =>
      obtain ⟨hp, he⟩ := firstNotSmaller_some d pc j p hf
      simp only
      rw [he, take_orderedInsert_of_pos pc p (j, d) hp, shiftInsert_map, shiftInsert_map]

theorem take_orderedInsert_take {D : Type} [LinearOrder D] (x : Nat × D) :
    ∀ (k : Nat) (L : List (Nat × D)),
      (List.orderedInsert byDistance x (L.take k)).take k
        = (List.orderedInsert byDistance x L).take k := by
  intro k L
  induction L generalizing k with
  | nil => simp
  | cons b L ih =>
    cases k with
    | zero => simp
    | succ k =>
      by_cases hb : byDistance x b
      · simp only [List.take_succ_cons, List.orderedInsert, hb, if_true]
        congr 1
        rw [← List.take_succ_cons, List.take_take]
        simp
      · simp only [List.take_succ_cons, List.orderedInsert, hb, if_false]
        rw [ih k]

theorem keepBest_take {D : Type} [LinearOrder D] (k : Nat) :
    ∀ (xs L : List (Nat × D)), keepBest k (L.take k) xs = (insertAll L xs).take k := by
  intro xs
  induction xs with
  | nil => intro L; rfl
  | cons x xs ih =>
    intro L
    simp only [keepBest, insertAll, List.foldl_cons]
    rw [take_orderedInsert_take]
    exact ih _

theorem insertAll_append {D : Type} [LinearOrder D] (s : Nat × D) (B : List (Nat × D)) :
    ∀ (xs A : List (Nat × D)), (∀ x ∈ xs, x.2 ≤ s.2) →
      insertAll (A ++ s :: B) xs = insertAll A xs ++ s :: B := by
  intro xs
  induction xs with
  | nil => intro A _; rfl
  | cons x xs ih =>
    intro A h
    have hx : byDistance x s := h x (List.mem_cons_self _ _)
    have e : ∀ A : List (Nat × D),
        List.orderedInsert byDistance x (A ++ s :: B)
          = List.orderedInsert byDistance x A ++ s :: B := by
      intro A
      induction A with
      | nil => simp [List.orderedInsert, hx]
      | cons a A iha =>
        by_cases ha : byDistance x a
        · simp [List.orderedInsert, ha]
        · simp [List.orderedInsert, ha, iha]
    simp only [insertAll, List.foldl_cons]
    rw [e A]
    exact ih _ (fun y hy => h y (List.mem_cons_of_mem _ hy))

theorem insertAll_perm {D : Type} [LinearOrder D] :
    ∀ (xs L : List (Nat × D)), (insertAll L xs).Perm (xs ++ L) := by
  intro xs
  induction xs with
  | nil => intro L; exact List.Perm.refl _
  | cons x xs ih =>
    intro L
    simp only [insertAll, List.foldl_cons]
    refine (ih _).trans ?_
    refine (List.Perm.append_left xs (List.perm_orderedInsert byDistance x L)).trans ?_
    exact List.perm_middle

theorem insertAll_sorted {D : Type} [LinearOrder D] :
    ∀ (xs L : List (Nat × D)), L.Sorted byDistance → (insertAll L xs).Sorted byDistance := by
  intro xs
  induction xs with
  | nil => intro L h; exact h
  | cons x xs ih =>
    intro L h
    simp only [insertAll, List.foldl_cons]
    exact ih _ (h.orderedInsert x L)

theorem insertAll_nil_snd {D : Type} [LinearOrder D] (xs : List (Nat × D)) :
    (insertAll [] xs).map Prod.snd = List.insertionSort (fun a b => a ≤ b) (xs.map Prod.snd) := by
  apply List.eq_of_perm_of_sorted (r := fun a b : D => a ≤ b)
  · have h1 := (insertAll_perm xs []).map Prod.snd
    simp only [List.append_nil] at h1
    exact h1.trans (List.perm_insertionSort _ _).symm
  · exact List.pairwise_map.mpr (insertAll_sorted xs [] List.sorted_nil)
  · exact List.sorted_insertionSort _ _

theorem keepBest_invariant {D : Type} [LinearOrder D] (W : D) (k : Nat) :
    ∀ (xs pc : List (Nat × D)), pc.length = k → pc.Sorted byDistance →
      (∀ y ∈ pc, y.2 ≤ W) →
      (keepBest k pc xs).length = k ∧ (keepBest k pc xs).Sorted byDistance
        ∧ ∀ y ∈ keepBest k pc xs, y.2 ≤ W := by
  intro xs
  induction xs with
  | nil => intro pc h1 h2 h3; exact ⟨h1, h2, h3⟩
  | cons x xs ih =>
    intro pc h1 h2 h3
    simp only [keepBest, List.foldl_cons]
    apply ih
    · rw [List.length_take, List.orderedInsert_length]; omega
    · exact List.Pairwise.sublist (List.take_sublist _ _) (h2.orderedInsert x pc)
    · intro y hy
      by_cases hx : x.2 ≤ W
      · rcases (List.mem_orderedInsert byDistance).mp (List.mem_of_mem_take hy) with h | h
        · rw [h]; exact hx
        · exact h3 y h
      · have hnone : firstNotSmaller x.2 (pc.map Prod.snd) = none := by
          rw [firstNotSmaller_eq_none_iff]
          intro z hz hxz
          obtain ⟨b, hb, rfl⟩ := List.mem_map.mp hz
          exact hx (le_trans hxz (h3 b hb))
        have := firstNotSmaller_none x.2 pc x.1 hnone
        rw [this, ← h1, List.take_left] at hy
        exact h3 y hy

/-- Folding the nearest-first offer over the candidates is `keepBest` on the
paired column. -/
theorem nearest_fold {D : Type} [LinearOrder D] (W : D) (dist : Nat → D) (k : Nat)
    (hk : 1 ≤ k) :
    ∀ (cands : List Nat) (pc : List (Nat × D)), pc.length = k → pc.Sorted byDistance →
      cands.foldl (fun col j => offer (NearestNeighborSort W) col j (dist j))
          (pc.map Prod.fst, pc.map Prod.snd)
        = ((keepBest k pc (cands.map (fun j => (j, dist j)))).map Prod.fst,
            (keepBest k pc (cands.map (fun j => (j, dist j)))).map Prod.snd) := by
  intro cands
  induction cands with
  | nil => intro pc _ _; rfl
  | cons j js ih =>
    intro pc h1 h2
    simp only [List.foldl_cons, List.map_cons, keepBest]
    rw [nearest_offer W pc j (dist j) (by omega) h2, h1]
    rw [ih _ (by rw [List.length_take, List.orderedInsert_length]; omega)
      (List.Pairwise.sublist (List.take_sublist _ _) (h2.orderedInsert _ pc))]
    rfl

theorem find_nodup (v : List Nat) : (find v).Nodup :=
  List.Nodup.filter _ (List.nodup_range _)

theorem find_lt (v : List Nat) : ∀ i ∈ find v, i < v.length := by
  intro i hi
  exact List.mem_range.mp (List.mem_of_mem_filter hi)

theorem ReturnIndicesFromTable_nodup {D : Type} (self : lshModel D) (p : List D) (t : Nat) :
    (ReturnIndicesFromTable self p t).Nodup :=
  find_nodup _

theorem ReturnIndicesFromTable_lt {D : Type} (self : lshModel D) (p : List D) (t : Nat)
    (hlen : ∀ (p : List D) (t : Nat) (v : List Nat),
      (self.hash.hashQuery p t v).length = v.length) :
    ∀ j ∈ ReturnIndicesFromTable self p t, j < self.referenceSet.n_cols := by
  intro j hj
  have := find_lt _ j hj
  rw [hlen] at this
  simpa using this

theorem shiftInsert_mem {α : Type} (c : List α) (p : Nat) (j x : α)
    (h : x ∈ shiftInsert c p j) : x = j ∨ x ∈ c := by
  unfold shiftInsert at h
  rcases List.mem_append.mp h with h1 | h1
  · exact Or.inr (List.mem_of_mem_take h1)
  · rcases List.mem_cons.mp h1 with h2 | h2
    · exact Or.inl h2
    · exact Or.inr (List.mem_of_mem_drop (List.mem_of_mem_take h2))

theorem shiftInsert_rest_sublist {α : Type} (c : List α) (p m : Nat) :
    (c.take p ++ (c.drop p).take m).Sublist c := by
  conv_rhs => rw [← List.take_append_drop p c]
  exact List.Sublist.append_left (List.take_sublist _ _) _

theorem shiftInsert_nodup_filter {α : Type} (f : α → Bool) (c : List α) (p : Nat) (j : α)
    (hj : j ∉ c) (hc : (c.filter f).Nodup) : ((shiftInsert c p j).filter f).Nodup := by
  have hsub := shiftInsert_rest_sublist c p (c.length - 1 - p)
  have hsubf := List.Sublist.filter f hsub
  have hnd := List.Nodup.sublist hsubf hc
  rw [List.filter_append] at hnd
  unfold shiftInsert
  rw [List.filter_append, List.filter_cons]
  by_cases hf : f j = true
  · simp only [hf, if_true]
    rw [List.nodup_middle, List.nodup_cons]
    refine ⟨?_, hnd⟩
    intro hmem
    rw [← List.filter_append] at hmem
    exact hj (hsub.subset (List.mem_of_mem_filter hmem))
  · simp only [hf]
    exact hnd

/-- What a candidate fold with in-range insertions leaves in the index column:
sentinels and admitted candidates, none of them twice. -/
theorem fold_indices {D : Type} (P : SortPolicy D) (k N : Nat) (hP : InRange P k)
    (ok : Nat → Prop) (step : List Nat × List D → Nat → List Nat × List D)
    (hstep : ∀ col j, step col j = col ∨ (ok j ∧ ∃ d, step col j = offer P col j d)) :
    ∀ (js : List Nat) (col : List Nat × List D) (seen : List Nat),
      col.1.length = k → col.2.length = k →
      (∀ x ∈ col.1, x = N ∨ (x ∈ seen ∧ ok x)) →
      (col.1.filter (fun x => decide (x ≠ N))).Nodup →
      js.Nodup → (∀ j ∈ js, j ∉ seen ∧ j ≠ N) →
      (js.foldl step col).1.length = k ∧ (js.foldl step col).2.length = k
        ∧ (∀ x ∈ (js.foldl step col).1, x = N ∨ (x ∈ seen ++ js ∧ ok x))
        ∧ ((js.foldl step col).1.filter (fun x => decide (x ≠ N))).Nodup := by
  intro js
  induction js with
  | nil =>
    intro col seen h1 h2 h3 h4 _ _
    exact ⟨h1, h2, by simpa using h3, h4⟩
  | cons j js ih =>
    intro col seen h1 h2 h3 h4 hnd hjs
    obtain ⟨hjnot, hnd2⟩ := List.nodup_cons.mp hnd
    have hj := hjs j (List.mem_cons_self _ _)
    have hrest : ∀ i ∈ js, i ∉ seen ++ [j] ∧ i ≠ N := by
      intro i hi
      refine ⟨?_, (hjs i (List.mem_cons_of_mem _ hi)).2⟩
      intro hmem
      rcases List.mem_append.mp hmem with h | h
      · exact (hjs i (List.mem_cons_of_mem _ hi)).1 h
      · simp at h
        exact hjnot (h ▸ hi)
    have key : (step col j).1.length = k ∧ (step col j).2.length = k
        ∧ (∀ x ∈ (step col j).1, x = N ∨ (x ∈ seen ++ [j] ∧ ok x))
        ∧ ((step col j).1.filter (fun x => decide (x ≠ N))).Nodup := by
      have keep : ∀ x ∈ col.1, x = N ∨ (x ∈ seen ++ [j] ∧ ok x) := by
        intro x hx
        rcases h3 x hx with h | h
        · exact Or.inl h
        · exact Or.inr ⟨List.mem_append_left _ h.1, h.2⟩
      rcases hstep col j with h | ⟨hok, d, h⟩
      · rw [h]; exact ⟨h1, h2, keep, h4⟩
      · rw [h]
        unfold offer
        cases hp : P.SortDistance col.2 col.1 d with
        | none => exact ⟨h1, h2, keep, h4⟩
        | some p =>
          have hpk : p < k := hP _ _ _ _ h2 h1 hp
          have hjc : j ∉ col.1 := by
            intro hmem
            rcases h3 j hmem with h | h
            · exact hj.2 h
            · exact hj.1 h.1
          refine ⟨?_, ?_, ?_, ?_⟩
          · simp only; rw [shiftInsert_length _ _ _ (by omega), h1]
          · simp only; rw [shiftInsert_length _ _ _ (by omega), h2]
          · intro x hx
            rcases shiftInsert_mem _ _ _ _ hx with h | h
            · exact Or.inr ⟨by rw [h]; simp, by rw [h]; exact hok⟩
            · exact keep x h
          · exact shiftInsert_nodup_filter _ _ _ _ hjc h4
    obtain ⟨k1, k2, k3, k4⟩ := key
    have := ih (step col j) (seen ++ [j]) k1 k2 k3 k4 hnd2 hrest
    simpa [List.foldl_cons, List.append_assoc] using this

theorem foldl_skip {α : Type} (q : Nat) (f : α → Nat → α) :
    ∀ (js : List Nat) (init : α),
      js.foldl (fun col j => if q = j then col else f col j) init
        = (js.filter (fun j => decide (j ≠ q))).foldl f init := by
  intro js
  induction js with
  | nil => intro init; rfl
  | cons j js ih =>
    intro init
    by_cases h : q = j
    · subst h
      simp [List.filter_cons, ih]
    · have h2 : j ≠ q := fun e => h e.symm
      simp [List.filter_cons, h, h2, ih]

theorem firstNotSmaller_lt {D : Type} [LinearOrder D] (d : D) :
    ∀ (l : List D) (p : Nat), firstNotSmaller d l = some p → p < l.length := by
  intro l
  induction l with
  | nil => intro p h; simp [firstNotSmaller] at h
  | cons b l ih =>
    intro p h
    by_cases hb : d ≤ b
    · simp [firstNotSmaller, hb] at h
      subst h; simp
    · simp only [firstNotSmaller, hb, if_false, Option.map_eq_some'] at h
      obtain ⟨p2, hp2, rfl⟩ := h
      have := ih p2 hp2
      simp; omega

theorem nearest_InRange {D : Type} [LinearOrder D] (W : D) (k : Nat) :
    InRange (NearestNeighborSort W) k := by
  intro dl il d p hdl _ h
  simp only [NearestNeighborSort] at h
  cases hl : dl.getLast? with
  | none => simp [hl] at h
  | some last =>
    simp only [hl] at h
    by_cases hgt : d > last
    · simp [hgt] at h
    · simp only [hgt, if_false] at h
      rw [← hdl]
      exact firstNotSmaller_lt d dl p h

/-- The result column of one query under the nearest-first policy, as a list
of pairs. -/
theorem nearest_column {D : Type} [LinearOrder D] (W : D) (dist : Nat → D) (k N : Nat)
    (hk : 1 ≤ k) (cands : List Nat) :
    cands.foldl (fun col j => offer (NearestNeighborSort W) col j (dist j))
        (List.replicate k N, List.replicate k W)
      = ((keepBest k (List.replicate k (N, W)) (cands.map (fun j => (j, dist j)))).map Prod.fst,
          (keepBest k (List.replicate k (N, W)) (cands.map (fun j => (j, dist j)))).map
            Prod.snd) := by
  have h := nearest_fold W dist k hk cands (List.replicate k (N, W)) (by simp)
    (List.pairwise_replicate.mpr (Or.inr (le_refl (α := D) W)))
  simpa using h

theorem keepBest_pads {D : Type} [LinearOrder D] (W : D) (k N : Nat) (hk : 1 ≤ k)
    (xs : List (Nat × D)) (hx : ∀ x ∈ xs, x.2 ≤ W) :
    keepBest k (List.replicate k (N, W)) xs
      = (insertAll [] xs).take k ++ List.replicate (k - min k xs.length) (N, W) := by
  have e1 : List.replicate k (N, W) = (List.replicate k (N, W)).take k := by
    rw [List.take_of_length_le (by simp)]
  have e2 : List.replicate k (N, W) = [] ++ (N, W) :: List.replicate (k - 1) (N, W) := by
    obtain ⟨k2, rfl⟩ : ∃ k2, k = k2 + 1 := ⟨k - 1, by omega⟩
    simp [List.replicate_succ]
  have hlen : (insertAll [] xs).length = xs.length := by
    have := (insertAll_perm xs []).length_eq
    simpa using this
  conv_lhs => rw [e1]
  rw [keepBest_take]
  conv_lhs => rw [e2]
  rw [insertAll_append (N, W) _ xs [] hx, ← List.replicate_succ]
  have e3 : k - 1 + 1 = k := by omega
  rw [e3, List.take_append_eq_append_take, hlen, List.take_replicate]
  congr 2
  omega

theorem Search_nearest_column {D : Type} [LinearOrder D] [Zero D] (W : D)
    (E : EuclideanDistance D) (self : lshModel D) (querySet : Mat D) (k : Nat)
    (rn : Mat Nat) (ds : Mat D) (t q : Nat) (hk : 1 ≤ k)
    (hret : (Search (NearestNeighborSort W) E self querySet k rn ds t).outcome
      = Outcome.returned)
    (hq : q < querySet.n_cols) :
    Shaped k querySet.n_cols
        (Search (NearestNeighborSort W) E self querySet k rn ds t).resultingNeighbors
        (Search (NearestNeighborSort W) E self querySet k rn ds t).distances
      ∧ (Search (NearestNeighborSort W) E self querySet k rn ds t).resultingNeighbors.col q
          = (bestPairs W k self.referenceSet.n_cols (candidateDistance E self querySet q)
              (candidates self querySet t q)).map Prod.fst
      ∧ (Search (NearestNeighborSort W) E self querySet k rn ds t).distances.col q
          = (bestPairs W k self.referenceSet.n_cols (candidateDistance E self querySet q)
              (candidates self querySet t q)).map Prod.snd := by
  obtain ⟨hrows, hkN⟩ := Search_preconditions _ E self querySet k rn ds t hret
  obtain ⟨_, hs, hc, _, _⟩ := Search_spec (NearestNeighborSort W) E self querySet k rn ds t
    hrows hkN hk (nearest_InRange W k) (by omega)
  have h := hc q hq
  have h2 := nearest_column W (candidateDistance E self querySet q) k
    self.referenceSet.n_cols hk (candidates self querySet t q)
  have h3 : (ReturnIndicesFromTable self (querySet.col q) t).foldl
      (biStep (NearestNeighborSort W) E self querySet q)
      (List.replicate k self.referenceSet.n_cols,
        List.replicate k (NearestNeighborSort W).WorstDistance) = _ := h2
  rw [h3] at h
  exact ⟨hs, (Prod.mk.inj h).1, (Prod.mk.inj h).2⟩

theorem SearchMonochromatic_nearest_column {D : Type} [LinearOrder D] [Zero D] (W : D)
    (E : EuclideanDistance D) (self : lshModel D) (k : Nat)
    (rn : Mat Nat) (ds : Mat D) (t q : Nat) (hk : 1 ≤ k)
    (hq : q < self.referenceSet.n_cols) :
    (SearchMonochromatic (NearestNeighborSort W) E self k rn ds t).outcome = Outcome.returned
      ∧ Shaped k self.referenceSet.n_cols
        (SearchMonochromatic (NearestNeighborSort W) E self k rn ds t).resultingNeighbors
        (SearchMonochromatic (NearestNeighborSort W) E self k rn ds t).distances
      ∧ (SearchMonochromatic (NearestNeighborSort W) E self k rn ds t).resultingNeighbors.col q
          = (bestPairs W k self.referenceSet.n_cols
              (candidateDistance E self self.referenceSet q)
              (candidatesMonochromatic self t q)).map Prod.fst
      ∧ (SearchMonochromatic (NearestNeighborSort W) E self k rn ds t).distances.col q
          = (bestPairs W k self.referenceSet.n_cols
              (candidateDistance E self self.referenceSet q)
              (candidatesMonochromatic self t q)).map Prod.snd := by
  obtain ⟨hret, hs, hc, _, _⟩ := SearchMonochromatic_spec (NearestNeighborSort W) E self k
    rn ds t (nearest_InRange W k) (by omega)
  have h := hc q hq
  have h2 := nearest_column W (candidateDistance E self self.referenceSet q) k
    self.referenceSet.n_cols hk (candidatesMonochromatic self t q)
  have h3 : (ReturnIndicesFromTable self (self.referenceSet.col q) t).foldl
      (monoStep (NearestNeighborSort W) E self q)
      (List.replicate k self.referenceSet.n_cols,
        List.replicate k (NearestNeighborSort W).WorstDistance) = _ :=
    (foldl_skip q _ _ _).trans h2
  rw [h3] at h
  exact ⟨hret, hs, (Prod.mk.inj h).1, (Prod.mk.inj h).2⟩

/-- The distance column of `bestPairs` when every candidate is closer than the
worst distance: the `k` smallest candidate distances in ascending order, then
padding. -/
theorem bestPairs_snd {D : Type} [LinearOrder D] (W : D) (k N : Nat) (dist : Nat → D)
    (cands : List Nat) (hk : 1 ≤ k) (hd : ∀ j ∈ cands, dist j < W) :
    (bestPairs W k N dist cands).map Prod.snd
      = (List.insertionSort (fun a b => a ≤ b) (cands.map dist)).take k
          ++ List.replicate (k - min k cands.length) W := by
  unfold bestPairs
  rw [keepBest_pads W k N hk]
  · rw [List.map_append, List.map_take, insertAll_nil_snd]
    simp [List.map_replicate, Function.comp_def]
  · intro x hx
    obtain ⟨j, hj, rfl⟩ := List.mem_map.mp hx
    exact le_of_lt (hd j hj)

/-- The layout of `bestPairs` when every candidate is closer than the worst
distance: `min k c` candidate pairs, then sentinel pairs. -/
theorem bestPairs_layout {D : Type} [LinearOrder D] (W : D) (k N : Nat) (dist : Nat → D)
    (cands : List Nat) (hk : 1 ≤ k) (hd : ∀ j ∈ cands, dist j < W) :
    ∃ kept : List (Nat × D), kept.length = min k cands.length
      ∧ (∀ x ∈ kept, x.1 ∈ cands ∧ x.2 = dist x.1)
      ∧ bestPairs W k N dist cands
          = kept ++ List.replicate (k - min k cands.length) (N, W) := by
  refine ⟨(insertAll [] (cands.map (fun j => (j, dist j)))).take k, ?_, ?_, ?_⟩
  · have := (insertAll_perm (cands.map (fun j => (j, dist j))) []).length_eq
    simp only [List.append_nil, List.length_map] at this
    rw [List.length_take, this]
  · intro x hx
    have h1 := (insertAll_perm (cands.map (fun j => (j, dist j))) []).subset
      (List.mem_of_mem_take hx)
    simp only [List.append_nil] at h1
    obtain ⟨j, hj, rfl⟩ := List.mem_map.mp h1
    exact ⟨hj, rfl⟩
  · unfold bestPairs
    rw [keepBest_pads W k N hk]
    · simp
    · intro x hx
      obtain ⟨j, hj, rfl⟩ := List.mem_map.mp hx
      exact le_of_lt (hd j hj)

/-- The distance column of `bestPairs` is always ascending and bounded by the
worst distance. -/
theorem bestPairs_sorted {D : Type} [LinearOrder D] (W : D) (k N : Nat) (dist : Nat → D)
    (cands : List Nat) :
    ((bestPairs W k N dist cands).map Prod.snd).length = k
      ∧ ((bestPairs W k N dist cands).map Prod.snd).Sorted (fun a b => a ≤ b)
      ∧ ∀ y ∈ (bestPairs W k N dist cands).map Prod.snd, y ≤ W := by
  obtain ⟨h1, h2, h3⟩ := keepBest_invariant W k (cands.map (fun j => (j, dist j)))
    (List.replicate k (N, W)) (by simp)
    (List.pairwise_replicate.mpr (Or.inr (le_refl (α := D) W)))
    (by intro y hy; rw [List.eq_of_mem_replicate hy])
  refine ⟨by simpa [bestPairs] using h1, List.pairwise_map.mpr h2, ?_⟩
  intro y hy
  obtain ⟨b, hb, rfl⟩ := List.mem_map.mp hy
  exact h3 b hb

theorem sorted_sentinel_suffix {D : Type} [LinearOrder D] (W : D) (l : List D)
    (hs : l.Sorted (fun a b => a ≤ b)) (hW : ∀ y ∈ l, y ≤ W) (a b : Nat) (hab : a ≤ b)
    (hb : b < l.length) (ha : l[a]? = some W) : l[b]? = some W := by
  have halt : a < l.length := by omega
  rw [List.getElem?_eq_getElem halt] at ha
  rw [List.getElem?_eq_getElem hb]
  have ha2 : l[a] = W := Option.some.inj ha
  rcases Nat.eq_or_lt_of_le hab with e | e
  · subst e; rw [ha2]
  · have h1 : l[a] ≤ l[b] := List.pairwise_iff_getElem.mp hs a b halt hb e
    rw [ha2] at h1
    exact congrArg some (le_antisymm (hW _ (List.getElem_mem _)) h1)

theorem finish_outcome_ne_invalid_argument {D : Type} (self : lshModel D) (n : Nat)
    (looped : Option (LoopState D)) (n0 : Mat Nat) (d0 : Mat D) (what : Message) :
    (finish self n looped n0 d0).outcome ≠ Outcome.invalid_argument what := by
  unfold finish
  cases looped with
  | none => simp
  | some st =>
    by_cases h : n = 0 <;> simp [h]

/-- Membership part of `fold_indices`, without any assumption on the
candidates. -/
theorem fold_members {D : Type} (P : SortPolicy D) (k N : Nat) (hP : InRange P k)
    (ok : Nat → Prop) (step : List Nat × List D → Nat → List Nat × List D)
    (hstep : ∀ col j, step col j = col ∨ (ok j ∧ ∃ d, step col j = offer P col j d)) :
    ∀ (js : List Nat) (col : List Nat × List D),
      col.1.length = k → col.2.length = k → (∀ x ∈ col.1, x = N ∨ ok x) →
      (js.foldl step col).1.length = k ∧ (js.foldl step col).2.length = k
        ∧ (∀ x ∈ (js.foldl step col).1, x = N ∨ ok x) := by
  intro js
  induction js with
  | nil => intro col h1 h2 h3; exact ⟨h1, h2, h3⟩
  | cons j js ih =>
    intro col h1 h2 h3
    have key : (step col j).1.length = k ∧ (step col j).2.length = k
        ∧ (∀ x ∈ (step col j).1, x = N ∨ ok x) := by
      rcases hstep col j with h | ⟨hok, d, h⟩
      · rw [h]; exact ⟨h1, h2, h3⟩
      · rw [h]
        unfold offer
        cases hp : P.SortDistance col.2 col.1 d with
        | none => exact ⟨h1, h2, h3⟩
        | some p =>
          have hpk : p < k := hP _ _ _ _ h2 h1 hp
          refine ⟨?_, ?_, ?_⟩
          · simp only; rw [shiftInsert_length _ _ _ (by omega), h1]
          · simp only; rw [shiftInsert_length _ _ _ (by omega), h2]
          · intro x hx
            rcases shiftInsert_mem _ _ _ _ hx with h | h
            · exact Or.inr (by rw [h]; exact hok)
            · exact h3 x h
    exact ih (step col j) key.1 key.2.1 key.2.2

/-- C1: a bichromatic `Search` whose query set has another number of rows than
the reference set, for every index, `k`, output matrices and table count,
throws `invalid_argument` with the dimension-mismatch message, calls
`ReturnIndicesFromTable` not once, and leaves the output matrices and the
index (its distance-evaluation counter included) as they were. -/
theorem Search_dimension_mismatch {D : Type} [Zero D] (P : SortPolicy D)
    (E : EuclideanDistance D) (self : lshModel D) (querySet : Mat D) (k : Nat)
    (resultingNeighbors : Mat Nat) (distances : Mat D) (numTablesToSearch : Nat)
    (h : querySet.n_rows ≠ self.referenceSet.n_rows) :
    (Search P E self querySet k resultingNeighbors distances numTablesToSearch).outcome
        = Outcome.invalid_argument
            (Message.dimension_mismatch querySet.n_rows self.referenceSet.n_rows)
      ∧ (Search P E self querySet k resultingNeighbors distances numTablesToSearch).hashCalls = 0
      ∧ (Search P E self querySet k resultingNeighbors distances
            numTablesToSearch).resultingNeighbors = resultingNeighbors
      ∧ (Search P E self querySet k resultingNeighbors distances numTablesToSearch).distances
          = distances
      ∧ (Search P E self querySet k resultingNeighbors distances
            numTablesToSearch).model.distanceEvaluations = self.distanceEvaluations
      ∧ (Search P E self querySet k resultingNeighbors distances numTablesToSearch).model
          = self := by
  simp [Search, h]

theorem Search_dimension_mismatch_witness :
    ((⟨2, 1, [[4, 4]]⟩ : Mat Nat).n_rows ≠ (demoModel [5, 1, 9]).referenceSet.n_rows)
      ∧ ((Search (NearestNeighborSort 1000) demoMetric (demoModel [5, 1, 9]) ⟨2, 1, [[4, 4]]⟩ 7
            ⟨1, 1, [[0]]⟩ ⟨1, 1, [[3]]⟩ 0).outcome
          = Outcome.invalid_argument (Message.dimension_mismatch 2 1)
        ∧ (Search (NearestNeighborSort 1000) demoMetric (demoModel [5, 1, 9]) ⟨2, 1, [[4, 4]]⟩ 7
            ⟨1, 1, [[0]]⟩ ⟨1, 1, [[3]]⟩ 0).hashCalls = 0
        ∧ (Search (NearestNeighborSort 1000) demoMetric (demoModel [5, 1, 9]) ⟨2, 1, [[4, 4]]⟩ 7
            ⟨1, 1, [[0]]⟩ ⟨1, 1, [[3]]⟩ 0).resultingNeighbors = ⟨1, 1, [[0]]⟩
        ∧ (Search (NearestNeighborSort 1000) demoMetric (demoModel [5, 1, 9]) ⟨2, 1, [[4, 4]]⟩ 7
            ⟨1, 1, [[0]]⟩ ⟨1, 1, [[3]]⟩ 0).distances = ⟨1, 1, [[3]]⟩
        ∧ (Search (NearestNeighborSort 1000) demoMetric (demoModel [5, 1, 9]) ⟨2, 1, [[4, 4]]⟩ 7
            ⟨1, 1, [[0]]⟩ ⟨1, 1, [[3]]⟩ 0).model.distanceEvaluations = 7
        ∧ (Search (NearestNeighborSort 1000) demoMetric (demoModel [5, 1, 9]) ⟨2, 1, [[4, 4]]⟩ 7
            ⟨1, 1, [[0]]⟩ ⟨1, 1, [[3]]⟩ 0).model = demoModel [5, 1, 9]) :=
  ⟨by decide, Search_dimension_mismatch _ _ _ _ _ _ _ _ (by decide)⟩

/-- C2: with a query set of the reference set's dimensionality, a bichromatic
`Search` with `k` above the number of reference points throws
`invalid_argument` with the insufficient-data message before the result
matrices are resized or filled, so the outputs and the index (its
distance-evaluation counter included) are unchanged; and with `k` at most the
number of reference points it throws neither of the two errors. -/
theorem Search_insufficient_data {D : Type} [Zero D] (P : SortPolicy D)
    (E : EuclideanDistance D) (self : lshModel D) (querySet : Mat D) (k : Nat)
    (resultingNeighbors : Mat Nat) (distances : Mat D) (numTablesToSearch : Nat)
    (h : querySet.n_rows = self.referenceSet.n_rows) :
    (k > self.referenceSet.n_cols →
      (Search P E self querySet k resultingNeighbors distances numTablesToSearch).outcome
          = Outcome.invalid_argument (Message.insufficient_data k self.referenceSet.n_cols)
        ∧ (Search P E self querySet k resultingNeighbors distances
              numTablesToSearch).resultingNeighbors = resultingNeighbors
        ∧ (Search P E self querySet k resultingNeighbors distances numTablesToSearch).distances
            = distances
        ∧ (Search P E self querySet k resultingNeighbors distances
              numTablesToSearch).model.distanceEvaluations = self.distanceEvaluations
        ∧ (Search P E self querySet k resultingNeighbors distances numTablesToSearch).model
            = self
        ∧ (Search P E self querySet k resultingNeighbors distances
              numTablesToSearch).hashCalls = 0)
      ∧ (k ≤ self.referenceSet.n_cols → ∀ what : Message,
          (Search P E self querySet k resultingNeighbors distances numTablesToSearch).outcome
            ≠ Outcome.invalid_argument what) := by
  constructor
  · intro hk
    simp [Search, h, hk]
  · intro hk what
    have hk2 : ¬ k > self.referenceSet.n_cols := by omega
    by_cases h0 : k = 0
    · simp [Search, h, h0]
    · simp only [Search, h, ne_eq, not_true_eq_false, if_false, hk2, h0]
      exact finish_outcome_ne_invalid_argument _ _ _ _ _ _

theorem Search_insufficient_data_witness :
    (demoQueries.n_rows = (demoModel [5, 1, 9]).referenceSet.n_rows)
      ∧ ((7 > (demoModel [5, 1, 9]).referenceSet.n_cols →
          (Search (NearestNeighborSort 1000) demoMetric (demoModel [5, 1, 9]) demoQueries 7
              ⟨1, 1, [[0]]⟩ ⟨1, 1, [[3]]⟩ 0).outcome
              = Outcome.invalid_argument
                  (Message.insufficient_data 7 (demoModel [5, 1, 9]).referenceSet.n_cols)
            ∧ (Search (NearestNeighborSort 1000) demoMetric (demoModel [5, 1, 9]) demoQueries 7
                ⟨1, 1, [[0]]⟩ ⟨1, 1, [[3]]⟩ 0).resultingNeighbors = ⟨1, 1, [[0]]⟩
            ∧ (Search (NearestNeighborSort 1000) demoMetric (demoModel [5, 1, 9]) demoQueries 7
                ⟨1, 1, [[0]]⟩ ⟨1, 1, [[3]]⟩ 0).distances = ⟨1, 1, [[3]]⟩
            ∧ (Search (NearestNeighborSort 1000) demoMetric (demoModel [5, 1, 9]) demoQueries 7
                ⟨1, 1, [[0]]⟩ ⟨1, 1, [[3]]⟩ 0).model.distanceEvaluations
                = (demoModel [5, 1, 9]).distanceEvaluations
            ∧ (Search (NearestNeighborSort 1000) demoMetric (demoModel [5, 1, 9]) demoQueries 7
                ⟨1, 1, [[0]]⟩ ⟨1, 1, [[3]]⟩ 0).model = demoModel [5, 1, 9]
            ∧ (Search (NearestNeighborSort 1000) demoMetric (demoModel [5, 1, 9]) demoQueries 7
                ⟨1, 1, [[0]]⟩ ⟨1, 1, [[3]]⟩ 0).hashCalls = 0)
        ∧ (7 ≤ (demoModel [5, 1, 9]).referenceSet.n_cols → ∀ what : Message,
            (Search (NearestNeighborSort 1000) demoMetric (demoModel [5, 1, 9]) demoQueries 7
              ⟨1, 1, [[0]]⟩ ⟨1, 1, [[3]]⟩ 0).outcome ≠ Outcome.invalid_argument what)) :=
  ⟨by decide, Search_insufficient_data _ _ _ _ _ _ _ _ (by decide)⟩

/-- C3 (failing input): monochromatic `Search` on an index with one reference
point and `k = 2` throws nothing; it returns normally with `2 x 1` result
matrices filled with sentinels. -/
theorem SearchMonochromatic_accepts_k_above_n :
    (SearchMonochromatic (NearestNeighborSort 1000) demoMetric (demoModel [5]) 2
        (emptyMat Nat) (emptyMat Nat) 0).outcome = Outcome.returned
      ∧ (SearchMonochromatic (NearestNeighborSort 1000) demoMetric (demoModel [5]) 2
        (emptyMat Nat) (emptyMat Nat) 0).resultingNeighbors = ⟨2, 1, [[1, 1]]⟩
      ∧ (SearchMonochromatic (NearestNeighborSort 1000) demoMetric (demoModel [5]) 2
        (emptyMat Nat) (emptyMat Nat) 0).distances = ⟨2, 1, [[1000, 1000]]⟩ := by
  decide

/-- C4: with a query set of the reference set's dimensionality, a bichromatic
`Search` with `k = 0` returns normally, the two result matrices have shape
`0 x numQueries` (one empty column per query), `ReturnIndicesFromTable` is not
called, and the index (its distance-evaluation counter included) is
unchanged. -/
theorem Search_zero_neighbors {D : Type} [Zero D] (P : SortPolicy D)
    (E : EuclideanDistance D) (self : lshModel D) (querySet : Mat D)
    (resultingNeighbors : Mat Nat) (distances : Mat D) (numTablesToSearch : Nat)
    (h : querySet.n_rows = self.referenceSet.n_rows) :
    (Search P E self querySet 0 resultingNeighbors distances numTablesToSearch).outcome
        = Outcome.returned
      ∧ (Search P E self querySet 0 resultingNeighbors distances
            numTablesToSearch).resultingNeighbors
          = ⟨0, querySet.n_cols, List.replicate querySet.n_cols []⟩
      ∧ (Search P E self querySet 0 resultingNeighbors distances numTablesToSearch).distances
          = ⟨0, querySet.n_cols, List.replicate querySet.n_cols []⟩
      ∧ (Search P E self querySet 0 resultingNeighbors distances numTablesToSearch).hashCalls = 0
      ∧ (Search P E self querySet 0 resultingNeighbors distances
            numTablesToSearch).model.distanceEvaluations = self.distanceEvaluations
      ∧ (Search P E self querySet 0 resultingNeighbors distances numTablesToSearch).model
          = self := by
  simp [Search, h, Mat.fill, Mat.set_size]

theorem Search_zero_neighbors_witness :
    (demoQueries.n_rows = (demoModel [5, 1, 9]).referenceSet.n_rows)
      ∧ ((Search (NearestNeighborSort 1000) demoMetric (demoModel [5, 1, 9]) demoQueries 0
            ⟨1, 1, [[0]]⟩ ⟨1, 1, [[3]]⟩ 0).outcome = Outcome.returned
        ∧ (Search (NearestNeighborSort 1000) demoMetric (demoModel [5, 1, 9]) demoQueries 0
            ⟨1, 1, [[0]]⟩ ⟨1, 1, [[3]]⟩ 0).resultingNeighbors
            = ⟨0, demoQueries.n_cols, List.replicate demoQueries.n_cols []⟩
        ∧ (Search (NearestNeighborSort 1000) demoMetric (demoModel [5, 1, 9]) demoQueries 0
            ⟨1, 1, [[0]]⟩ ⟨1, 1, [[3]]⟩ 0).distances
            = ⟨0, demoQueries.n_cols, List.replicate demoQueries.n_cols []⟩
        ∧ (Search (NearestNeighborSort 1000) demoMetric (demoModel [5, 1, 9]) demoQueries 0
            ⟨1, 1, [[0]]⟩ ⟨1, 1, [[3]]⟩ 0).hashCalls = 0
        ∧ (Search (NearestNeighborSort 1000) demoMetric (demoModel [5, 1, 9]) demoQueries 0
            ⟨1, 1, [[0]]⟩ ⟨1, 1, [[3]]⟩ 0).model.distanceEvaluations
            = (demoModel [5, 1, 9]).distanceEvaluations
        ∧ (Search (NearestNeighborSort 1000) demoMetric (demoModel [5, 1, 9]) demoQueries 0
            ⟨1, 1, [[0]]⟩ ⟨1, 1, [[3]]⟩ 0).model = demoModel [5, 1, 9]) :=
  ⟨by decide, Search_zero_neighbors _ _ _ _ _ _ _ (by decide)⟩

/-- C5 (failing input): monochromatic `Search` with `k = 0` on an index with
one reference point does hash: `ReturnIndicesFromTable` is called once (once
per reference point) and the candidate total is added to the counter. -/
theorem SearchMonochromatic_zero_k_hashes :
    (SearchMonochromatic (NearestNeighborSort 1000) demoMetric (demoModel [5]) 0
        (emptyMat Nat) (emptyMat Nat) 0).hashCalls = 1
      ∧ (SearchMonochromatic (NearestNeighborSort 1000) demoMetric (demoModel [5]) 0
        (emptyMat Nat) (emptyMat Nat) 0).model.distanceEvaluations = 7 + 1 := by
  decide

/-- C6: under the nearest-first policy with worst distance `W`, for every
search that returns with `k >= 1` and every query whose candidates (the query
itself removed in monochromatic mode) all lie at a distance strictly below
`W`, the distance column of the query is the first `k` candidate distances in
ascending order, padded with `W` up to length `k`.  First conjunct:
bichromatic; second: monochromatic. -/
theorem Search_keeps_k_best {D : Type} [LinearOrder D] [Zero D] (W : D)
    (E : EuclideanDistance D) (self : lshModel D) (querySet : Mat D) (k : Nat)
    (rn : Mat Nat) (ds : Mat D) (t q : Nat) (hk : 1 ≤ k) :
    ((Search (NearestNeighborSort W) E self querySet k rn ds t).outcome = Outcome.returned →
      q < querySet.n_cols →
      (∀ j ∈ candidates self querySet t q, candidateDistance E self querySet q j < W) →
      (Search (NearestNeighborSort W) E self querySet k rn ds t).distances.col q
        = (List.insertionSort (fun a b => a ≤ b)
              ((candidates self querySet t q).map (candidateDistance E self querySet q))).take k
            ++ List.replicate (k - min k (candidates self querySet t q).length) W)
      ∧ ((SearchMonochromatic (NearestNeighborSort W) E self k rn ds t).outcome
            = Outcome.returned →
        q < self.referenceSet.n_cols →
        (∀ j ∈ candidatesMonochromatic self t q,
          candidateDistance E self self.referenceSet q j < W) →
        (SearchMonochromatic (NearestNeighborSort W) E self k rn ds t).distances.col q
          = (List.insertionSort (fun a b => a ≤ b)
                ((candidatesMonochromatic self t q).map
                  (candidateDistance E self self.referenceSet q))).take k
              ++ List.replicate (k - min k (candidatesMonochromatic self t q).length) W) := by
  constructor
  · intro hret hq hd
    rw [(Search_nearest_column W E self querySet k rn ds t q hk hret hq).2.2]
    exact bestPairs_snd W k _ _ _ hk hd
  · intro _ hq hd
    rw [(SearchMonochromatic_nearest_column W E self k rn ds t q hk hq).2.2.2]
    exact bestPairs_snd W k _ _ _ hk hd

theorem Search_keeps_k_best_witness :
    (1 ≤ 2)
      ∧ (demoSearch.outcome = Outcome.returned ∧ 0 < demoQueries.n_cols
          ∧ ∀ j ∈ candidates (demoModel [5, 1, 9]) demoQueries 0 0,
              candidateDistance demoMetric (demoModel [5, 1, 9]) demoQueries 0 j < 1000)
      ∧ demoSearch.distances.col 0
          = (List.insertionSort (fun a b => a ≤ b)
              ((candidates (demoModel [5, 1, 9]) demoQueries 0 0).map
                (candidateDistance demoMetric (demoModel [5, 1, 9]) demoQueries 0))).take 2
            ++ List.replicate (2 - min 2 (candidates (demoModel [5, 1, 9]) demoQueries 0 0).length)
                1000
      ∧ (demoSearchMonochromatic.outcome = Outcome.returned
          ∧ 0 < (demoModel [5, 1, 9]).referenceSet.n_cols
          ∧ ∀ j ∈ candidatesMonochromatic (demoModel [5, 1, 9]) 0 0,
              candidateDistance demoMetric (demoModel [5, 1, 9])
                (demoModel [5, 1, 9]).referenceSet 0 j < 1000)
      ∧ demoSearchMonochromatic.distances.col 0
          = (List.insertionSort (fun a b => a ≤ b)
              ((candidatesMonochromatic (demoModel [5, 1, 9]) 0 0).map
                (candidateDistance demoMetric (demoModel [5, 1, 9])
                  (demoModel [5, 1, 9]).referenceSet 0))).take 2
            ++ List.replicate (2 - min 2 (candidatesMonochromatic (demoModel [5, 1, 9]) 0 0).length)
                1000 :=
  ⟨by decide, ⟨by decide, by decide, by decide⟩,
    (Search_keeps_k_best 1000 demoMetric (demoModel [5, 1, 9]) demoQueries 2 (emptyMat Nat)
      (emptyMat Nat) 0 0 (by decide)).1 (by decide) (by decide) (by decide),
    ⟨by decide, by decide, by decide⟩,
    (Search_keeps_k_best 1000 demoMetric (demoModel [5, 1, 9]) demoQueries 2 (emptyMat Nat)
      (emptyMat Nat) 0 0 (by decide)).2 (by decide) (by decide) (by decide)⟩

theorem Search_returned_pos {D : Type} [Zero D] (P : SortPolicy D) (E : EuclideanDistance D)
    (self : lshModel D) (querySet : Mat D) (k : Nat) (rn : Mat Nat) (ds : Mat D) (t : Nat)
    (hk : 1 ≤ k)
    (hret : (Search P E self querySet k rn ds t).outcome = Outcome.returned) :
    0 < querySet.n_cols := by
  obtain ⟨hrows, hkN⟩ := Search_preconditions P E self querySet k rn ds t hret
  rcases Nat.eq_zero_or_pos querySet.n_cols with h0 | h0
  · exfalso
    have hk0 : ¬ k = 0 := by omega
    have hkN2 : ¬ k > self.referenceSet.n_cols := by omega
    simp only [Search, hrows, ne_eq, not_true_eq_false, if_false, hkN2, hk0, h0,
      List.range_zero, queryLoop, finish, if_true] at hret
    exact absurd hret (by decide)
  · exact h0

theorem SearchMonochromatic_returned_pos {D : Type} [Zero D] (P : SortPolicy D)
    (E : EuclideanDistance D) (self : lshModel D) (k : Nat) (rn : Mat Nat) (ds : Mat D)
    (t : Nat)
    (hret : (SearchMonochromatic P E self k rn ds t).outcome = Outcome.returned) :
    0 < self.referenceSet.n_cols := by
  rcases Nat.eq_zero_or_pos self.referenceSet.n_cols with h0 | h0
  · exfalso
    simp only [SearchMonochromatic, h0, List.range_zero, queryLoop, finish, if_true] at hret
    exact absurd hret (by decide)
  · exact h0

theorem bestPairs_candidatesThenSentinels {D : Type} [LinearOrder D] (W : D) (k N : Nat)
    (hk : 1 ≤ k) (dist : Nat → D) (cands : List Nat) (nc : List Nat) (dc : List D)
    (hd : ∀ j ∈ cands, dist j < W)
    (hn : nc = (bestPairs W k N dist cands).map Prod.fst)
    (hdc : dc = (bestPairs W k N dist cands).map Prod.snd) :
    CandidatesThenSentinels k N W dist cands nc dc
      ∧ (cands = [] → nc = List.replicate k N ∧ dc = List.replicate k W) := by
  obtain ⟨kept, h1, h2, h3⟩ := bestPairs_layout W k N dist cands hk hd
  have e1 : nc = kept.map Prod.fst ++ List.replicate (k - min k cands.length) N := by
    rw [hn, h3]; simp [List.map_replicate]
  have e2 : dc = kept.map Prod.snd ++ List.replicate (k - min k cands.length) W := by
    rw [hdc, h3]; simp [List.map_replicate]
  refine ⟨⟨kept, h1, h2, e1, e2⟩, ?_⟩
  intro hc
  rw [hc] at h1
  simp only [List.length_nil, Nat.min_zero, List.length_eq_zero] at h1
  rw [e1, e2, h1, hc]
  simp

/-- C7: under the nearest-first policy with worst distance `W`, a search that
returns with `k >= 1` leaves result matrices of shape `k x numQueries`
(`k x N` in monochromatic mode); and for every query `q` whose `c` candidates
(the query itself removed in monochromatic mode) all lie at a distance
strictly below `W`, the column of `q` is `min k c` candidate pairs followed by
`k - min k c` sentinel pairs (index `N`, distance `W`); a query without
candidates gets `k` sentinel pairs.  First conjunct: bichromatic; second:
monochromatic. -/
theorem Search_column_layout {D : Type} [LinearOrder D] [Zero D] (W : D)
    (E : EuclideanDistance D) (self : lshModel D) (querySet : Mat D) (k : Nat)
    (rn : Mat Nat) (ds : Mat D) (t q : Nat) (hk : 1 ≤ k) :
    ((Search (NearestNeighborSort W) E self querySet k rn ds t).outcome = Outcome.returned →
      HasShape (Search (NearestNeighborSort W) E self querySet k rn ds t).resultingNeighbors
          k querySet.n_cols
        ∧ HasShape (Search (NearestNeighborSort W) E self querySet k rn ds t).distances
          k querySet.n_cols
        ∧ (q < querySet.n_cols →
          (∀ j ∈ candidates self querySet t q, candidateDistance E self querySet q j < W) →
          CandidatesThenSentinels k self.referenceSet.n_cols W
              (candidateDistance E self querySet q) (candidates self querySet t q)
              ((Search (NearestNeighborSort W) E self querySet k rn ds t).resultingNeighbors.col q)
              ((Search (NearestNeighborSort W) E self querySet k rn ds t).distances.col q)
            ∧ (candidates self querySet t q = [] →
              (Search (NearestNeighborSort W) E self querySet k rn ds t).resultingNeighbors.col q
                  = List.replicate k self.referenceSet.n_cols
                ∧ (Search (NearestNeighborSort W) E self querySet k rn ds t).distances.col q
                  = List.replicate k W)))
      ∧ ((SearchMonochromatic (NearestNeighborSort W) E self k rn ds t).outcome
            = Outcome.returned →
        HasShape (SearchMonochromatic (NearestNeighborSort W) E self k rn ds t).resultingNeighbors
            k self.referenceSet.n_cols
          ∧ HasShape (SearchMonochromatic (NearestNeighborSort W) E self k rn ds t).distances
            k self.referenceSet.n_cols
          ∧ (q < self.referenceSet.n_cols →
            (∀ j ∈ candidatesMonochromatic self t q,
              candidateDistance E self self.referenceSet q j < W) →
            CandidatesThenSentinels k self.referenceSet.n_cols W
                (candidateDistance E self self.referenceSet q) (candidatesMonochromatic self t q)
                ((SearchMonochromatic (NearestNeighborSort W) E self k rn ds
                  t).resultingNeighbors.col q)
                ((SearchMonochromatic (NearestNeighborSort W) E self k rn ds t).distances.col q)
              ∧ (candidatesMonochromatic self t q = [] →
                (SearchMonochromatic (NearestNeighborSort W) E self k rn ds
                      t).resultingNeighbors.col q = List.replicate k self.referenceSet.n_cols
                  ∧ (SearchMonochromatic (NearestNeighborSort W) E self k rn ds
                      t).distances.col q = List.replicate k W))) := by
  constructor
  · intro hret
    have hn := Search_returned_pos _ E self querySet k rn ds t hk hret
    obtain ⟨hs, _, _⟩ := Search_nearest_column W E self querySet k rn ds t 0 hk hret hn
    refine ⟨⟨hs.2.2.1, hs.2.2.2.2.1, hs.1⟩, ⟨hs.2.2.2.1, hs.2.2.2.2.2, hs.2.1⟩, ?_⟩
    intro hq hd
    obtain ⟨_, hc1, hc2⟩ := Search_nearest_column W E self querySet k rn ds t q hk hret hq
    exact bestPairs_candidatesThenSentinels W k _ hk _ _ _ _ hd hc1 hc2
  · intro hret
    have hn := SearchMonochromatic_returned_pos _ E self k rn ds t hret
    obtain ⟨_, hs, _, _⟩ := SearchMonochromatic_nearest_column W E self k rn ds t 0 hk hn
    refine ⟨⟨hs.2.2.1, hs.2.2.2.2.1, hs.1⟩, ⟨hs.2.2.2.1, hs.2.2.2.2.2, hs.2.1⟩, ?_⟩
    intro hq hd
    obtain ⟨_, _, hc1, hc2⟩ := SearchMonochromatic_nearest_column W E self k rn ds t q hk hq
    exact bestPairs_candidatesThenSentinels W k _ hk _ _ _ _ hd hc1 hc2

theorem Search_column_layout_witness :
    (1 ≤ 2)
      ∧ (demoSearch.outcome = Outcome.returned ∧ 0 < demoQueries.n_cols
          ∧ ∀ j ∈ candidates (demoModel [5, 1, 9]) demoQueries 0 0,
              candidateDistance demoMetric (demoModel [5, 1, 9]) demoQueries 0 j < 1000)
      ∧ (HasShape demoSearch.resultingNeighbors 2 demoQueries.n_cols
          ∧ HasShape demoSearch.distances 2 demoQueries.n_cols
          ∧ CandidatesThenSentinels 2 (demoModel [5, 1, 9]).referenceSet.n_cols 1000
              (candidateDistance demoMetric (demoModel [5, 1, 9]) demoQueries 0)
              (candidates (demoModel [5, 1, 9]) demoQueries 0 0)
              (demoSearch.resultingNeighbors.col 0) (demoSearch.distances.col 0))
      ∧ (demoSearchMonochromatic.outcome = Outcome.returned
          ∧ 0 < (demoModel [5, 1, 9]).referenceSet.n_cols
          ∧ ∀ j ∈ candidatesMonochromatic (demoModel [5, 1, 9]) 0 0,
              candidateDistance demoMetric (demoModel [5, 1, 9])
                (demoModel [5, 1, 9]).referenceSet 0 j < 1000)
      ∧ (HasShape demoSearchMonochromatic.resultingNeighbors 2
            (demoModel [5, 1, 9]).referenceSet.n_cols
          ∧ HasShape demoSearchMonochromatic.distances 2
            (demoModel [5, 1, 9]).referenceSet.n_cols
          ∧ CandidatesThenSentinels 2 (demoModel [5, 1, 9]).referenceSet.n_cols 1000
              (candidateDistance demoMetric (demoModel [5, 1, 9])
                (demoModel [5, 1, 9]).referenceSet 0)
              (candidatesMonochromatic (demoModel [5, 1, 9]) 0 0)
              (demoSearchMonochromatic.resultingNeighbors.col 0)
              (demoSearchMonochromatic.distances.col 0)) :=
  ⟨by decide, ⟨by decide, by decide, by decide⟩,
    ⟨((Search_column_layout 1000 demoMetric (demoModel [5, 1, 9]) demoQueries 2 (emptyMat Nat)
        (emptyMat Nat) 0 0 (by decide)).1 (by decide)).1,
      ((Search_column_layout 1000 demoMetric (demoModel [5, 1, 9]) demoQueries 2 (emptyMat Nat)
        (emptyMat Nat) 0 0 (by decide)).1 (by decide)).2.1,
      (((Search_column_layout 1000 demoMetric (demoModel [5, 1, 9]) demoQueries 2 (emptyMat Nat)
        (emptyMat Nat) 0 0 (by decide)).1 (by decide)).2.2 (by decide) (by decide)).1⟩,
    ⟨by decide, by decide, by decide⟩,
    ⟨((Search_column_layout 1000 demoMetric (demoModel [5, 1, 9]) demoQueries 2 (emptyMat Nat)
        (emptyMat Nat) 0 0 (by decide)).2 (by decide)).1,
      ((Search_column_layout 1000 demoMetric (demoModel [5, 1, 9]) demoQueries 2 (emptyMat Nat)
        (emptyMat Nat) 0 0 (by decide)).2 (by decide)).2.1,
      (((Search_column_layout 1000 demoMetric (demoModel [5, 1, 9]) demoQueries 2 (emptyMat Nat)
        (emptyMat Nat) 0 0 (by decide)).2 (by decide)).2.2 (by decide) (by decide)).1⟩⟩

/-- C8: under the nearest-first policy with worst distance `W`, for every
search that returns with `k >= 1` and every query, the `k` distances of the
query's result column are nondecreasing from slot 0 to slot `k - 1`, and once
a slot holds `W` every later slot holds `W` too.  First conjunct:
bichromatic; second: monochromatic. -/
theorem Search_column_sorted {D : Type} [LinearOrder D] [Zero D] (W : D)
    (E : EuclideanDistance D) (self : lshModel D) (querySet : Mat D) (k : Nat)
    (rn : Mat Nat) (ds : Mat D) (t q : Nat) (hk : 1 ≤ k) :
    ((Search (NearestNeighborSort W) E self querySet k rn ds t).outcome = Outcome.returned →
      q < querySet.n_cols →
      ((Search (NearestNeighborSort W) E self querySet k rn ds t).distances.col q).length = k
        ∧ ((Search (NearestNeighborSort W) E self querySet k rn ds t).distances.col q).Sorted
            (fun a b => a ≤ b)
        ∧ ∀ a b, a ≤ b → b < k →
          ((Search (NearestNeighborSort W) E self querySet k rn ds t).distances.col q)[a]?
              = some W →
          ((Search (NearestNeighborSort W) E self querySet k rn ds t).distances.col q)[b]?
              = some W)
      ∧ ((SearchMonochromatic (NearestNeighborSort W) E self k rn ds t).outcome
            = Outcome.returned →
        q < self.referenceSet.n_cols →
        ((SearchMonochromatic (NearestNeighborSort W) E self k rn ds t).distances.col q).length
            = k
          ∧ ((SearchMonochromatic (NearestNeighborSort W) E self k rn ds t).distances.col
              q).Sorted (fun a b => a ≤ b)
          ∧ ∀ a b, a ≤ b → b < k →
            ((SearchMonochromatic (NearestNeighborSort W) E self k rn ds t).distances.col q)[a]?
                = some W →
            ((SearchMonochromatic (NearestNeighborSort W) E self k rn ds t).distances.col q)[b]?
                = some W) := by
  constructor
  · intro hret hq
    rw [(Search_nearest_column W E self querySet k rn ds t q hk hret hq).2.2]
    obtain ⟨h1, h2, h3⟩ := bestPairs_sorted W k self.referenceSet.n_cols
      (candidateDistance E self querySet q) (candidates self querySet t q)
    refine ⟨h1, h2, ?_⟩
    intro a b hab hb ha
    exact sorted_sentinel_suffix W _ h2 h3 a b hab (by rw [h1]; exact hb) ha
  · intro _ hq
    rw [(SearchMonochromatic_nearest_column W E self k rn ds t q hk hq).2.2.2]
    obtain ⟨h1, h2, h3⟩ := bestPairs_sorted W k self.referenceSet.n_cols
      (candidateDistance E self self.referenceSet q) (candidatesMonochromatic self t q)
    refine ⟨h1, h2, ?_⟩
    intro a b hab hb ha
    exact sorted_sentinel_suffix W _ h2 h3 a b hab (by rw [h1]; exact hb) ha

theorem Search_column_sorted_witness :
    (1 ≤ 2)
      ∧ (demoSearch.outcome = Outcome.returned ∧ 0 < demoQueries.n_cols)
      ∧ ((demoSearch.distances.col 0).length = 2
          ∧ (demoSearch.distances.col 0).Sorted (fun a b => a ≤ b)
          ∧ ∀ a b, a ≤ b → b < 2 → (demoSearch.distances.col 0)[a]? = some 1000 →
              (demoSearch.distances.col 0)[b]? = some 1000)
      ∧ (demoSearchMonochromatic.outcome = Outcome.returned
          ∧ 0 < (demoModel [5, 1, 9]).referenceSet.n_cols)
      ∧ ((demoSearchMonochromatic.distances.col 0).length = 2
          ∧ (demoSearchMonochromatic.distances.col 0).Sorted (fun a b => a ≤ b)
          ∧ ∀ a b, a ≤ b → b < 2 →
              (demoSearchMonochromatic.distances.col 0)[a]? = some 1000 →
              (demoSearchMonochromatic.distances.col 0)[b]? = some 1000) :=
  ⟨by decide, ⟨by decide, by decide⟩,
    (Search_column_sorted 1000 demoMetric (demoModel [5, 1, 9]) demoQueries 2 (emptyMat Nat)
      (emptyMat Nat) 0 0 (by decide)).1 (by decide) (by decide),
    ⟨by decide, by decide⟩,
    (Search_column_sorted 1000 demoMetric (demoModel [5, 1, 9]) demoQueries 2 (emptyMat Nat)
      (emptyMat Nat) 0 0 (by decide)).2 (by decide) (by decide)⟩

theorem fold_validDistinct {D : Type} (P : SortPolicy D) (k N : Nat) (hP : InRange P k)
    (W : D) (step : List Nat × List D → Nat → List Nat × List D)
    (hstep : ∀ col j, step col j = col ∨ (True ∧ ∃ d, step col j = offer P col j d))
    (js : List Nat) (hnd : js.Nodup) (hlt : ∀ j ∈ js, j < N) :
    ((js.foldl step (List.replicate k N, List.replicate k W)).1).length = k
      ∧ ValidDistinct N (js.foldl step (List.replicate k N, List.replicate k W)).1 := by
  obtain ⟨h1, _, h3, h4⟩ := fold_indices P k N hP (fun _ => True) step hstep js
    (List.replicate k N, List.replicate k W) [] (by simp) (by simp)
    (by intro x hx; exact Or.inl (List.eq_of_mem_replicate hx))
    (by
      have : (List.replicate k N).filter (fun x => decide (x ≠ N)) = [] := by
        rw [List.filter_eq_nil_iff]
        intro x hx
        simp [List.eq_of_mem_replicate hx]
      simp only [this]
      exact List.nodup_nil)
    hnd
    (by
      intro j hj
      exact ⟨by simp, Nat.ne_of_lt (hlt j hj)⟩)
  refine ⟨h1, ?_, h4⟩
  intro x hx
  rcases h3 x hx with h | h
  · exact Or.inr h
  · exact Or.inl (hlt x (by simpa using h.1))

/-- C9: for every index with `N` reference points whose hash marks only the
`N` positions of the vector it is handed, every `k` with `1 <= k <= N`, every
ranking policy that on `k`-slot columns answers do-not-insert or a position
below `k`, and every query, `Search` returns and the query's index column has
`k` entries, each a reference index below `N` or the sentinel `N`, with no
non-sentinel index twice.  First conjunct: bichromatic (query set of the
reference set's dimensionality); second: monochromatic. -/
theorem Search_indices_valid_distinct {D : Type} [Zero D] (P : SortPolicy D)
    (E : EuclideanDistance D) (self : lshModel D) (querySet : Mat D) (k : Nat)
    (rn : Mat Nat) (ds : Mat D) (t q : Nat) (hk : 1 ≤ k)
    (hkN : k ≤ self.referenceSet.n_cols)
    (hlen : ∀ (p : List D) (t : Nat) (v : List Nat),
      (self.hash.hashQuery p t v).length = v.length)
    (hP : ∀ (dl : List D) (il : List Nat) (d : D) (p : Nat),
      dl.length = k → il.length = k → P.SortDistance dl il d = some p → p < k) :
    (querySet.n_rows = self.referenceSet.n_rows → q < querySet.n_cols →
      (Search P E self querySet k rn ds t).outcome = Outcome.returned
        ∧ ((Search P E self querySet k rn ds t).resultingNeighbors.col q).length = k
        ∧ ValidDistinct self.referenceSet.n_cols
            ((Search P E self querySet k rn ds t).resultingNeighbors.col q))
      ∧ (q < self.referenceSet.n_cols →
        (SearchMonochromatic P E self k rn ds t).outcome = Outcome.returned
          ∧ ((SearchMonochromatic P E self k rn ds t).resultingNeighbors.col q).length = k
          ∧ ValidDistinct self.referenceSet.n_cols
              ((SearchMonochromatic P E self k rn ds t).resultingNeighbors.col q)) := by
  constructor
  · intro hrows hq
    obtain ⟨hret, _, hc, _, _⟩ := Search_spec P E self querySet k rn ds t hrows hkN hk hP
      (by omega)
    have h := congrArg Prod.fst (hc q hq)
    simp only at h
    rw [h]
    have := fold_validDistinct P k self.referenceSet.n_cols hP P.WorstDistance
      (biStep P E self querySet q) (fun col j => Or.inr ⟨trivial, _, rfl⟩)
      (ReturnIndicesFromTable self (querySet.col q) t)
      (ReturnIndicesFromTable_nodup _ _ _) (ReturnIndicesFromTable_lt _ _ _ hlen)
    exact ⟨hret, this.1, this.2⟩
  · intro hq
    obtain ⟨hret, _, hc, _, _⟩ := SearchMonochromatic_spec P E self k rn ds t hP (by omega)
    have h := congrArg Prod.fst (hc q hq)
    simp only at h
    rw [h]
    have := fold_validDistinct P k self.referenceSet.n_cols hP P.WorstDistance
      (monoStep P E self q)
      (fun col j => by
        by_cases hqj : q = j
        · exact Or.inl (by simp [monoStep, hqj])
        · exact Or.inr ⟨trivial,
            tempDistance E self (self.referenceSet.col q) (self.referenceSet.col j),
            by simp only [monoStep, hqj, if_false]⟩)
      (ReturnIndicesFromTable self (self.referenceSet.col q) t)
      (ReturnIndicesFromTable_nodup _ _ _) (ReturnIndicesFromTable_lt _ _ _ hlen)
    exact ⟨hret, this.1, this.2⟩

theorem Search_indices_valid_distinct_witness :
    (1 ≤ 2 ∧ 2 ≤ (demoModel [5, 1, 9]).referenceSet.n_cols
        ∧ demoQueries.n_rows = (demoModel [5, 1, 9]).referenceSet.n_rows
        ∧ 0 < demoQueries.n_cols ∧ 0 < (demoModel [5, 1, 9]).referenceSet.n_cols)
      ∧ (demoSearch.outcome = Outcome.returned
          ∧ (demoSearch.resultingNeighbors.col 0).length = 2
          ∧ ValidDistinct (demoModel [5, 1, 9]).referenceSet.n_cols
              (demoSearch.resultingNeighbors.col 0))
      ∧ (demoSearchMonochromatic.outcome = Outcome.returned
          ∧ (demoSearchMonochromatic.resultingNeighbors.col 0).length = 2
          ∧ ValidDistinct (demoModel [5, 1, 9]).referenceSet.n_cols
              (demoSearchMonochromatic.resultingNeighbors.col 0)) :=
  ⟨by decide,
    (Search_indices_valid_distinct (NearestNeighborSort 1000) demoMetric (demoModel [5, 1, 9])
      demoQueries 2 (emptyMat Nat) (emptyMat Nat) 0 0 (by decide) (by decide)
      (fun _ _ v => by simp [demoModel, demoHash]) (nearest_InRange 1000 2)).1
      (by decide) (by decide),
    (Search_indices_valid_distinct (NearestNeighborSort 1000) demoMetric (demoModel [5, 1, 9])
      demoQueries 2 (emptyMat Nat) (emptyMat Nat) 0 0 (by decide) (by decide)
      (fun _ _ v => by simp [demoModel, demoHash]) (nearest_InRange 1000 2)).2
      (by decide)⟩

/-- C10: for every index with `N >= 1` reference points, every `k >= 1`, every
ranking policy that on `k`-slot columns answers do-not-insert or a position
below `k`, and every `q < N`, monochromatic `Search` returns and the result
column of query `q` does not contain the index `q`, whatever candidates the
hash returns. -/
theorem SearchMonochromatic_excludes_self {D : Type} [Zero D] (P : SortPolicy D)
    (E : EuclideanDistance D) (self : lshModel D) (k : Nat)
    (rn : Mat Nat) (ds : Mat D) (t q : Nat) (_hk : 1 ≤ k)
    (hP : ∀ (dl : List D) (il : List Nat) (d : D) (p : Nat),
      dl.length = k → il.length = k → P.SortDistance dl il d = some p → p < k)
    (hq : q < self.referenceSet.n_cols) :
    (SearchMonochromatic P E self k rn ds t).outcome = Outcome.returned
      ∧ q ∉ (SearchMonochromatic P E self k rn ds t).resultingNeighbors.col q := by
  obtain ⟨hret, _, hc, _, _⟩ := SearchMonochromatic_spec P E self k rn ds t hP (by omega)
  refine ⟨hret, ?_⟩
  have h := congrArg Prod.fst (hc q hq)
  simp only at h
  rw [h]
  obtain ⟨_, _, h3⟩ := fold_members P k self.referenceSet.n_cols hP (fun j => q ≠ j)
    (monoStep P E self q)
    (fun col j => by
      by_cases hqj : q = j
      · exact Or.inl (by simp [monoStep, hqj])
      · exact Or.inr ⟨hqj,
          tempDistance E self (self.referenceSet.col q) (self.referenceSet.col j),
          by simp only [monoStep, hqj, if_false]⟩)
    (ReturnIndicesFromTable self (self.referenceSet.col q) t)
    (List.replicate k self.referenceSet.n_cols, List.replicate k P.WorstDistance)
    (by simp) (by simp)
    (by intro x hx; exact Or.inl (List.eq_of_mem_replicate hx))
  intro hmem
  rcases h3 q hmem with h | h
  · omega
  · exact h rfl

theorem SearchMonochromatic_excludes_self_witness :
    (1 ≤ 2 ∧ 0 < (demoModel [5, 1, 9]).referenceSet.n_cols
        ∧ 0 ∈ ReturnIndicesFromTable (demoModel [5, 1, 9])
            ((demoModel [5, 1, 9]).referenceSet.col 0) 0)
      ∧ demoSearchMonochromatic.outcome = Outcome.returned
      ∧ 0 ∉ demoSearchMonochromatic.resultingNeighbors.col 0 :=
  ⟨by decide,
    SearchMonochromatic_excludes_self (NearestNeighborSort 1000) demoMetric
      (demoModel [5, 1, 9]) 2 (emptyMat Nat) (emptyMat Nat) 0 0 (by decide)
      (nearest_InRange 1000 2) (by decide)⟩

/-! ## Table count, counter, training and serialization -/

theorem finish_returned {D : Type} (self : lshModel D) (n : Nat)
    (looped : Option (LoopState D)) (n0 : Mat Nat) (d0 : Mat D)
    (h : (finish self n looped n0 d0).outcome = Outcome.returned) :
    ∃ st, looped = some st ∧ n ≠ 0
      ∧ (finish self n looped n0 d0).model.distanceEvaluations
          = size_t (self.distanceEvaluations + st.avgIndicesReturned)
      ∧ (finish self n looped n0 d0).resultingNeighbors = st.resultingNeighbors
      ∧ (finish self n looped n0 d0).distances = st.distances
      ∧ (finish self n looped n0 d0).hashCalls = st.hashCalls := by
  cases looped with
  | none => simp [finish] at h
  | some st =>
    by_cases hn : n = 0
    · simp [finish, hn] at h
    · exact ⟨st, rfl, hn, rfl, rfl, rfl, rfl⟩

theorem Search_eq_finish {D : Type} [Zero D] (P : SortPolicy D) (E : EuclideanDistance D)
    (self : lshModel D) (querySet : Mat D) (k : Nat) (rn : Mat Nat) (ds : Mat D) (t : Nat)
    (hrows : querySet.n_rows = self.referenceSet.n_rows)
    (hkN : k ≤ self.referenceSet.n_cols) (hk : 1 ≤ k) :
    Search P E self querySet k rn ds t
      = finish self querySet.n_cols
          (queryLoop self t (fun i => querySet.col i)
            (fun i j => BaseCase P E self i j querySet)
            (List.range querySet.n_cols)
            { resultingNeighbors :=
                (rn.set_size k querySet.n_cols).fill self.referenceSet.n_cols
              distances := (ds.set_size k querySet.n_cols).fill P.WorstDistance
              avgIndicesReturned := 0
              hashCalls := 0 })
          ((rn.set_size k querySet.n_cols).fill self.referenceSet.n_cols)
          ((ds.set_size k querySet.n_cols).fill P.WorstDistance) := by
  have hk0 : ¬ k = 0 := by omega
  have hkN2 : ¬ k > self.referenceSet.n_cols := by omega
  simp only [Search, hrows, ne_eq, not_true_eq_false, if_false, hkN2, hk0]

/-- C11: `ReturnIndicesFromTable` rejects no table count.  For every index,
query point and requested count `t` it returns the positions the hash marked
when queried with `numTables` tables if `t = 0` or `t > numTables`, and with
exactly `t` tables if `1 <= t <= numTables`; so the candidate list for `t = 0`
is the one for `t = numTables`, and so is the one for every
`t > numTables`. -/
theorem ReturnIndicesFromTable_clamps {D : Type} (self : lshModel D) (queryPoint : List D)
    (t : Nat) :
    ((t = 0 ∨ t > self.numTables) →
        tablesToSearch self t = self.numTables
          ∧ ReturnIndicesFromTable self queryPoint t
              = find (self.hash.hashQuery queryPoint self.numTables
                  (List.replicate self.referenceSet.n_cols 0)))
      ∧ (1 ≤ t ∧ t ≤ self.numTables →
        tablesToSearch self t = t
          ∧ ReturnIndicesFromTable self queryPoint t
              = find (self.hash.hashQuery queryPoint t
                  (List.replicate self.referenceSet.n_cols 0)))
      ∧ ReturnIndicesFromTable self queryPoint 0
          = ReturnIndicesFromTable self queryPoint self.numTables
      ∧ (t > self.numTables →
          ReturnIndicesFromTable self queryPoint t
            = ReturnIndicesFromTable self queryPoint self.numTables) := by
  have h0 : tablesToSearch self 0 = self.numTables := by simp [tablesToSearch]
  have hN : tablesToSearch self self.numTables = self.numTables := by
    by_cases h : self.numTables = 0 <;> simp [tablesToSearch, h]
  have hgt : t > self.numTables → tablesToSearch self t = self.numTables := by
    intro h
    have h1 : ¬ t = 0 := by omega
    simp [tablesToSearch, h1, h]
  refine ⟨?_, ?_, ?_, ?_⟩
  · intro h
    have e : tablesToSearch self t = self.numTables := by
      rcases h with h | h
      · rw [h]; exact h0
      · exact hgt h
    exact ⟨e, by simp only [ReturnIndicesFromTable, e]⟩
  · intro h
    have h1 : ¬ t = 0 := by omega
    have h2 : ¬ t > self.numTables := by omega
    have e : tablesToSearch self t = t := by simp [tablesToSearch, h1, h2]
    exact ⟨e, by simp only [ReturnIndicesFromTable, e]⟩
  · simp only [ReturnIndicesFromTable, h0, hN]
  · intro h
    simp only [ReturnIndicesFromTable, hgt h, hN]

theorem ReturnIndicesFromTable_clamps_witness :
    ((5 = 0 ∨ 5 > (demoModel [5, 1, 9]).numTables) →
        tablesToSearch (demoModel [5, 1, 9]) 5 = (demoModel [5, 1, 9]).numTables
          ∧ ReturnIndicesFromTable (demoModel [5, 1, 9]) [4] 5
              = find ((demoModel [5, 1, 9]).hash.hashQuery [4] (demoModel [5, 1, 9]).numTables
                  (List.replicate (demoModel [5, 1, 9]).referenceSet.n_cols 0)))
      ∧ (1 ≤ 5 ∧ 5 ≤ (demoModel [5, 1, 9]).numTables →
        tablesToSearch (demoModel [5, 1, 9]) 5 = 5
          ∧ ReturnIndicesFromTable (demoModel [5, 1, 9]) [4] 5
              = find ((demoModel [5, 1, 9]).hash.hashQuery [4] 5
                  (List.replicate (demoModel [5, 1, 9]).referenceSet.n_cols 0)))
      ∧ ReturnIndicesFromTable (demoModel [5, 1, 9]) [4] 0
          = ReturnIndicesFromTable (demoModel [5, 1, 9]) [4] (demoModel [5, 1, 9]).numTables
      ∧ (5 > (demoModel [5, 1, 9]).numTables →
          ReturnIndicesFromTable (demoModel [5, 1, 9]) [4] 5
            = ReturnIndicesFromTable (demoModel [5, 1, 9]) [4]
                (demoModel [5, 1, 9]).numTables) :=
  ReturnIndicesFromTable_clamps (demoModel [5, 1, 9]) [4] 5

/-- The monochromatic base case of a point with itself returns its arguments
at once: no metric and no ranking policy is consulted. -/
theorem BaseCaseMonochromatic_self {D : Type} [Zero D] (P : SortPolicy D)
    (E : EuclideanDistance D) (self : lshModel D) (queryIndex : Nat)
    (neighbors : Mat Nat) (distances : Mat D) :
    BaseCaseMonochromatic P E self queryIndex queryIndex neighbors distances
      = some (neighbors, distances) := by
  simp [BaseCaseMonochromatic]

/-- C13 (failing input): monochromatic `Search` with `k = 1` on an index with
one reference point, which the hash returns as its own and only candidate.
The only base-case call is that of the point with itself; it returns its
arguments at once whatever the metric and the policy, so no distance is
computed.  Yet the call returns with the counter grown by 1. -/
theorem SearchMonochromatic_counts_skipped_candidate :
    (SearchMonochromatic (NearestNeighborSort 1000) demoMetric (demoModel [5]) 1
        (emptyMat Nat) (emptyMat Nat) 0).outcome = Outcome.returned
      ∧ (demoModel [5]).referenceSet.n_cols = 1
      ∧ ReturnIndicesFromTable (demoModel [5]) ((demoModel [5]).referenceSet.col 0) 0 = [0]
      ∧ (∀ (P : SortPolicy Nat) (E : EuclideanDistance Nat) (nb : Mat Nat) (ds : Mat Nat),
          BaseCaseMonochromatic P E (demoModel [5]) 0 0 nb ds = some (nb, ds))
      ∧ (SearchMonochromatic (NearestNeighborSort 1000) demoMetric (demoModel [5]) 1
          (emptyMat Nat) (emptyMat Nat) 0).model.distanceEvaluations
          = (demoModel [5]).distanceEvaluations + 1 :=
  ⟨by decide, by decide, by decide,
    fun P E nb ds => BaseCaseMonochromatic_self P E (demoModel [5]) 0 nb ds, by decide⟩

/-- What `Train` stores and hands to the hash builder as hash width, in every
case: with `hashType = 1` and a zero `hashWidth` the sum, in the order of the
loop, of the square roots of the 25 values `EuclideanDistance::Evaluate`
returns, divided by 25; otherwise the `hashWidth` it was given. -/
theorem Train_hashWidth_estimate {D : Type} [Zero D] [DecidableEq D] (ops : DoubleOps D)
    (E : EuclideanDistance D) (build : HashParams D → hashModel D) (rand : Nat → Nat)
    (self : lshModel D) (referenceSet : Mat D)
    (hashType secondHashSize bucketSize numProj numTables : Nat) (hashWidth : D)
    (dimensions planes shears : Nat) :
    (Train ops E build rand self referenceSet hashType secondHashSize bucketSize numProj
        numTables hashWidth dimensions planes shears).setParams.hashWidth
      = (Train ops E build rand self referenceSet hashType secondHashSize bucketSize numProj
        numTables hashWidth dimensions planes shears).model.hashWidth
      ∧ (hashType = 1 → hashWidth = 0 →
        (Train ops E build rand self referenceSet hashType secondHashSize bucketSize numProj
          numTables hashWidth dimensions planes shears).model.hashWidth
          = ops.div
              ((List.range 25).foldl
                (fun w i => ops.add w (ops.sqrt
                  (E.Evaluate (referenceSet.col (rand (2 * i)))
                    (referenceSet.col (rand (2 * i + 1))))))
                0)
              25)
      ∧ ((hashType ≠ 1 ∨ hashWidth ≠ 0) →
        (Train ops E build rand self referenceSet hashType secondHashSize bucketSize numProj
          numTables hashWidth dimensions planes shears).model.hashWidth = hashWidth) := by
  refine ⟨rfl, ?_, ?_⟩
  · intro h1 h2
    simp [Train, heuristicHashWidth, h1, h2]
  · intro h
    by_cases h1 : hashType = 1
    · rcases h with h | h
      · exact absurd h1 h
      · simp [Train, h1, h]
    · simp [Train, h1]

/-- C14 (failing input): `Train` with `hashType = 1` and `hashWidth = 0` on
the two points 0 and 4 of a line, every sampled pair being (point 0, point 1):
the 25 Euclidean distances are all 4 and their mean is 4, but the width stored
in the index and handed to the hash builder is 2, the mean of their square
roots. -/
theorem Train_hashWidth_mean_of_roots :
    (Train demoOps demoMetric (fun _ => demoHash) (fun n => n % 2) (lshModel.empty demoHash)
        ⟨1, 2, [[0], [4]]⟩ 1 99901 500 1 1 0 1 1 1).model.hashWidth = 2
      ∧ (Train demoOps demoMetric (fun _ => demoHash) (fun n => n % 2) (lshModel.empty demoHash)
        ⟨1, 2, [[0], [4]]⟩ 1 99901 500 1 1 0 1 1 1).setParams.hashWidth = 2
      ∧ (∀ i, i < 25 →
          demoMetric.Evaluate ((⟨1, 2, [[0], [4]]⟩ : Mat Nat).col ((2 * i) % 2))
            ((⟨1, 2, [[0], [4]]⟩ : Mat Nat).col ((2 * i + 1) % 2)) = 4)
      ∧ ((List.range 25).map (fun i =>
          demoMetric.Evaluate ((⟨1, 2, [[0], [4]]⟩ : Mat Nat).col ((2 * i) % 2))
            ((⟨1, 2, [[0], [4]]⟩ : Mat Nat).col ((2 * i + 1) % 2)))).sum / 25 = 4 := by
  decide

/-- C15: `Train` deletes the set stored before exactly when the index owned
it, and leaves the index borrowing the caller's set (`ownsSet = false`) with
`hashType`, `secondHashSize`, `bucketSize`, `numProj`, `numTables`,
`numDimensions`, `numPlanes` and `shears` equal to the arguments. -/
theorem Train_ownership {D : Type} [Zero D] [DecidableEq D] (ops : DoubleOps D)
    (E : EuclideanDistance D) (build : HashParams D → hashModel D) (rand : Nat → Nat)
    (self : lshModel D) (referenceSet : Mat D)
    (hashType secondHashSize bucketSize numProj numTables : Nat) (hashWidth : D)
    (dimensions planes shears : Nat) :
    ((Train ops E build rand self referenceSet hashType secondHashSize bucketSize numProj
          numTables hashWidth dimensions planes shears).deleted = true ↔ self.ownsSet = true)
      ∧ (Train ops E build rand self referenceSet hashType secondHashSize bucketSize numProj
          numTables hashWidth dimensions planes shears).model.ownsSet = false
      ∧ (Train ops E build rand self referenceSet hashType secondHashSize bucketSize numProj
          numTables hashWidth dimensions planes shears).model.referenceSet = referenceSet
      ∧ (Train ops E build rand self referenceSet hashType secondHashSize bucketSize numProj
          numTables hashWidth dimensions planes shears).model.hashType = hashType
      ∧ (Train ops E build rand self referenceSet hashType secondHashSize bucketSize numProj
          numTables hashWidth dimensions planes shears).model.secondHashSize = secondHashSize
      ∧ (Train ops E build rand self referenceSet hashType secondHashSize bucketSize numProj
          numTables hashWidth dimensions planes shears).model.bucketSize = bucketSize
      ∧ (Train ops E build rand self referenceSet hashType secondHashSize bucketSize numProj
          numTables hashWidth dimensions planes shears).model.numProj = numProj
      ∧ (Train ops E build rand self referenceSet hashType secondHashSize bucketSize numProj
          numTables hashWidth dimensions planes shears).model.numTables = numTables
      ∧ (Train ops E build rand self referenceSet hashType secondHashSize bucketSize numProj
          numTables hashWidth dimensions planes shears).model.numDimensions = dimensions
      ∧ (Train ops E build rand self referenceSet hashType secondHashSize bucketSize numProj
          numTables hashWidth dimensions planes shears).model.numPlanes = planes
      ∧ (Train ops E build rand self referenceSet hashType secondHashSize bucketSize numProj
          numTables hashWidth dimensions planes shears).model.shears = shears := by
  simp [Train]

/-- C16: loading through `Serialize` leaves `ownsSet = true` whatever it was
before and deletes the set stored before exactly when the index owned it;
saving through `Serialize` deletes nothing and leaves the index, its
ownership flag and its stored set as they were. -/
theorem Serialize_ownership {D : Type} (self : lshModel D) (ar : Archive D) :
    (Serialize true self ar).model.ownsSet = true
      ∧ ((Serialize true self ar).deleted = true ↔ self.ownsSet = true)
      ∧ (Serialize false self ar).model.ownsSet = self.ownsSet
      ∧ (Serialize false self ar).model.referenceSet = self.referenceSet
      ∧ (Serialize false self ar).deleted = false
      ∧ (Serialize false self ar).model = self := by
  simp [Serialize]

/-- C20 (failing input): `Train` with `hashType = 1` and `hashWidth = 0` on a
reference set with a single point, and on one with three identical points,
stores and hands to the hash builder the width 0. -/
theorem Train_hashWidth_zero :
    (Train demoOps demoMetric (fun _ => demoHash) (fun _ => 0) (lshModel.empty demoHash)
        ⟨1, 1, [[7]]⟩ 1 99901 500 1 1 0 1 1 1).model.hashWidth = 0
      ∧ (Train demoOps demoMetric (fun _ => demoHash) (fun _ => 0) (lshModel.empty demoHash)
        ⟨1, 1, [[7]]⟩ 1 99901 500 1 1 0 1 1 1).setParams.hashWidth = 0
      ∧ (Train demoOps demoMetric (fun _ => demoHash) (fun n => n % 3) (lshModel.empty demoHash)
        ⟨1, 3, [[7], [7], [7]]⟩ 1 99901 500 1 1 0 1 1 1).model.hashWidth = 0
      ∧ (Train demoOps demoMetric (fun _ => demoHash) (fun n => n % 3) (lshModel.empty demoHash)
        ⟨1, 3, [[7], [7], [7]]⟩ 1 99901 500 1 1 0 1 1 1).setParams.hashWidth = 0 := by
  decide

theorem ReturnIndicesFromTable_congr {D : Type} (m1 m2 : lshModel D)
    (hr : m2.referenceSet = m1.referenceSet) (hh : m2.hash = m1.hash)
    (hn : m2.numTables = m1.numTables) (p : List D) (t : Nat) :
    ReturnIndicesFromTable m2 p t = ReturnIndicesFromTable m1 p t := by
  simp only [ReturnIndicesFromTable, tablesToSearch, hr, hh, hn]

theorem queryLoop_congr {D : Type} (m1 m2 : lshModel D) (t : Nat) (point : Nat → List D)
    (base : Nat → Nat → Mat Nat → Mat D → Option (Mat Nat × Mat D))
    (h : ∀ p, ReturnIndicesFromTable m2 p t = ReturnIndicesFromTable m1 p t) :
    ∀ (qs : List Nat) (st : LoopState D),
      queryLoop m2 t point base qs st = queryLoop m1 t point base qs st := by
  intro qs
  induction qs with
  | nil => intro st; rfl
  | cons i is ih =>
    intro st
    simp only [queryLoop, h]
    cases candidateLoop (base i) (ReturnIndicesFromTable m1 (point i) t)
        st.resultingNeighbors st.distances with
    | none => rfl
    | some r => exact ih _

theorem tempDistance_congr {D : Type} [Zero D] (E : EuclideanDistance D) (m1 m2 : lshModel D)
    (hh : m2.hash = m1.hash) (ht : m2.hashType = m1.hashType) (a b : List D) :
    tempDistance E m2 a b = tempDistance E m1 a b := by
  simp only [tempDistance, hh, ht]

/-- Two indices with the same reference set, hash state, hash type and number
of tables answer every search alike. -/
theorem Search_congr {D : Type} [Zero D] (P : SortPolicy D) (E : EuclideanDistance D)
    (m1 m2 : lshModel D) (hr : m2.referenceSet = m1.referenceSet) (hh : m2.hash = m1.hash)
    (ht : m2.hashType = m1.hashType) (hn : m2.numTables = m1.numTables)
    (querySet : Mat D) (k : Nat) (rn : Mat Nat) (ds : Mat D) (t : Nat) :
    ((Search P E m2 querySet k rn ds t).outcome = (Search P E m1 querySet k rn ds t).outcome
      ∧ (Search P E m2 querySet k rn ds t).resultingNeighbors
          = (Search P E m1 querySet k rn ds t).resultingNeighbors
      ∧ (Search P E m2 querySet k rn ds t).distances
          = (Search P E m1 querySet k rn ds t).distances)
      ∧ ((SearchMonochromatic P E m2 k rn ds t).outcome
          = (SearchMonochromatic P E m1 k rn ds t).outcome
        ∧ (SearchMonochromatic P E m2 k rn ds t).resultingNeighbors
            = (SearchMonochromatic P E m1 k rn ds t).resultingNeighbors
        ∧ (SearchMonochromatic P E m2 k rn ds t).distances
            = (SearchMonochromatic P E m1 k rn ds t).distances) := by
  have hq := queryLoop_congr m1 m2 t
  have hb : (fun i j => BaseCase P E m2 i j querySet)
      = (fun i j => BaseCase P E m1 i j querySet) := by
    funext i j nb dd
    simp only [BaseCase, tempDistance_congr E m1 m2 hh ht, hr]
  have hbm : (fun i j => BaseCaseMonochromatic P E m2 i j)
      = (fun i j => BaseCaseMonochromatic P E m1 i j) := by
    funext i j nb dd
    simp only [BaseCaseMonochromatic, tempDistance_congr E m1 m2 hh ht, hr]
  have hf : ∀ (n : Nat) (looped : Option (LoopState D)) (n0 : Mat Nat) (d0 : Mat D),
      (finish m2 n looped n0 d0).outcome = (finish m1 n looped n0 d0).outcome
        ∧ (finish m2 n looped n0 d0).resultingNeighbors
            = (finish m1 n looped n0 d0).resultingNeighbors
        ∧ (finish m2 n looped n0 d0).distances = (finish m1 n looped n0 d0).distances := by
    intro n looped n0 d0
    cases looped with
    | none => exact ⟨rfl, rfl, rfl⟩
    | some st => exact ⟨rfl, rfl, rfl⟩
  constructor
  · by_cases h1 : querySet.n_rows = m1.referenceSet.n_rows
    · by_cases h2 : k > m1.referenceSet.n_cols
      · simp [Search, hr, h1, h2]
      · by_cases h3 : k = 0
        · simp [Search, hr, h1, h3]
        · simp only [Search, hr, h1, ne_eq, not_true_eq_false, if_false, h2, h3, hb]
          rw [hq _ _ (ReturnIndicesFromTable_congr m1 m2 hr hh hn · t)]
          exact hf _ _ _ _
    · simp [Search, hr, h1]
  · simp only [SearchMonochromatic, hr, hbm]
    rw [hq _ _ (ReturnIndicesFromTable_congr m1 m2 hr hh hn · t)]
    exact hf _ _ _ _

/-- C17: saving an index and loading the archive into a freshly constructed
index gives an index with the same reference set, hash state and scalar
parameters (`hashType`, `secondHashSize`, `bucketSize`, `numProj`,
`numTables`, `hashWidth`, `numDimensions`, `numPlanes`,
`distanceEvaluations`, `shears`), and both `Search` overloads on the loaded
index end as on the original and leave the same neighbour and distance
matrices, for every policy, metric, query set, `k`, output matrices and table
count. -/
theorem Serialize_round_trip {D : Type} [Zero D] (hash0 : hashModel D) (self : lshModel D)
    (ar : Archive D) :
    ((roundTrip hash0 self ar).referenceSet = self.referenceSet
        ∧ (roundTrip hash0 self ar).hash = self.hash
        ∧ (roundTrip hash0 self ar).hashType = self.hashType
        ∧ (roundTrip hash0 self ar).secondHashSize = self.secondHashSize
        ∧ (roundTrip hash0 self ar).bucketSize = self.bucketSize
        ∧ (roundTrip hash0 self ar).numProj = self.numProj
        ∧ (roundTrip hash0 self ar).numTables = self.numTables
        ∧ (roundTrip hash0 self ar).hashWidth = self.hashWidth
        ∧ (roundTrip hash0 self ar).numDimensions = self.numDimensions
        ∧ (roundTrip hash0 self ar).numPlanes = self.numPlanes
        ∧ (roundTrip hash0 self ar).distanceEvaluations = self.distanceEvaluations
        ∧ (roundTrip hash0 self ar).shears = self.shears)
      ∧ ∀ (P : SortPolicy D) (E : EuclideanDistance D) (querySet : Mat D) (k : Nat)
          (rn : Mat Nat) (ds : Mat D) (t : Nat),
          ((Search P E (roundTrip hash0 self ar) querySet k rn ds t).outcome
              = (Search P E self querySet k rn ds t).outcome
            ∧ (Search P E (roundTrip hash0 self ar) querySet k rn ds t).resultingNeighbors
              = (Search P E self querySet k rn ds t).resultingNeighbors
            ∧ (Search P E (roundTrip hash0 self ar) querySet k rn ds t).distances
              = (Search P E self querySet k rn ds t).distances)
          ∧ ((SearchMonochromatic P E (roundTrip hash0 self ar) k rn ds t).outcome
              = (SearchMonochromatic P E self k rn ds t).outcome
            ∧ (SearchMonochromatic P E (roundTrip hash0 self ar) k rn ds t).resultingNeighbors
              = (SearchMonochromatic P E self k rn ds t).resultingNeighbors
            ∧ (SearchMonochromatic P E (roundTrip hash0 self ar) k rn ds t).distances
              = (SearchMonochromatic P E self k rn ds t).distances) := by
  refine ⟨⟨rfl, rfl, rfl, rfl, rfl, rfl, rfl, rfl, rfl, rfl, rfl, rfl⟩, ?_⟩
  intro P E querySet k rn ds t
  exact Search_congr P E self (roundTrip hash0 self ar) rfl rfl rfl rfl querySet k rn ds t

theorem shiftInsert_getElem?_lt {α : Type} (l : List α) (p : Nat) (x : α) (r : Nat)
    (hp : p < l.length) (hr : r < p) : (shiftInsert l p x)[r]? = l[r]? := by
  unfold shiftInsert
  rw [List.getElem?_append_left (by simp; omega)]
  rw [List.getElem?_take_of_lt hr]

theorem shiftInsert_getElem?_eq {α : Type} (l : List α) (p : Nat) (x : α)
    (hp : p < l.length) : (shiftInsert l p x)[p]? = some x := by
  unfold shiftInsert
  have e : (List.take p l).length = p := by simp; omega
  rw [List.getElem?_append_right (by omega), e]
  simp

theorem shiftInsert_getElem?_gt {α : Type} (l : List α) (p : Nat) (x : α) (r : Nat)
    (hpr : p < r) (hr : r < l.length) : (shiftInsert l p x)[r]? = l[r - 1]? := by
  unfold shiftInsert
  have e : (List.take p l).length = p := by simp; omega
  rw [List.getElem?_append_right (by omega), e]
  obtain ⟨m, hm⟩ : ∃ m, r - p = m + 1 := ⟨r - p - 1, by omega⟩
  rw [hm, List.getElem?_cons_succ, List.getElem?_take_of_lt (by omega), List.getElem?_drop]
  congr 1
  omega

/-- C18: on result matrices with `k` rows and `n` columns, `InsertNeighbor`
at a position `pos < k` of column `queryIndex < n` stays inside its buffers,
keeps the shape, changes no other column, and in column `queryIndex` leaves
the slots below `pos` as they were, writes the new neighbour and distance at
slot `pos`, and moves to each slot `r` with `pos < r <= k - 1` what slot
`r - 1` held; the column keeps its `k` slots, so what slot `k - 1` held is
gone.  The neighbour and the distance column are shifted alike. -/
theorem InsertNeighbor_shift {D : Type} (k n queryIndex pos neighbor : Nat) (distance : D)
    (neighbors : Mat Nat) (distances : Mat D) (hs : Shaped k n neighbors distances)
    (hpos : pos < k) (hq : queryIndex < n) :
    ∃ ds2 nb2, InsertNeighbor distances neighbors queryIndex pos neighbor distance
        = some (ds2, nb2)
      ∧ Shaped k n nb2 ds2
      ∧ (∀ q2, q2 ≠ queryIndex →
          nb2.col q2 = neighbors.col q2 ∧ ds2.col q2 = distances.col q2)
      ∧ (nb2.col queryIndex).length = k ∧ (ds2.col queryIndex).length = k
      ∧ (∀ r, r < pos →
          (nb2.col queryIndex)[r]? = (neighbors.col queryIndex)[r]?
            ∧ (ds2.col queryIndex)[r]? = (distances.col queryIndex)[r]?)
      ∧ ((nb2.col queryIndex)[pos]? = some neighbor
          ∧ (ds2.col queryIndex)[pos]? = some distance)
      ∧ (∀ r, pos < r → r ≤ k - 1 →
          (nb2.col queryIndex)[r]? = (neighbors.col queryIndex)[r - 1]?
            ∧ (ds2.col queryIndex)[r]? = (distances.col queryIndex)[r - 1]?) := by
  obtain ⟨ds2, nb2, he, hs2, hn, hd, ho⟩ :=
    InsertNeighbor_spec k n queryIndex pos neighbor distance neighbors distances hs hpos hq
  have hnl : (neighbors.col queryIndex).length = k := by
    rw [Mat.col_length neighbors queryIndex hs.1 (by have := hs.2.2.2.2.1; omega), hs.2.2.1]
  have hdl : (distances.col queryIndex).length = k := by
    rw [Mat.col_length distances queryIndex hs.2.1 (by have := hs.2.2.2.2.2; omega),
      hs.2.2.2.1]
  refine ⟨ds2, nb2, he, hs2, ho, ?_, ?_, ?_, ?_, ?_⟩
  · rw [hn, shiftInsert_length _ _ _ (by omega), hnl]
  · rw [hd, shiftInsert_length _ _ _ (by omega), hdl]
  · intro r hr
    rw [hn, hd]
    exact ⟨shiftInsert_getElem?_lt _ _ _ _ (by omega) hr,
      shiftInsert_getElem?_lt _ _ _ _ (by omega) hr⟩
  · rw [hn, hd]
    exact ⟨shiftInsert_getElem?_eq _ _ _ (by omega), shiftInsert_getElem?_eq _ _ _ (by omega)⟩
  · intro r hpr hr
    rw [hn, hd]
    exact ⟨shiftInsert_getElem?_gt _ _ _ _ hpr (by omega),
      shiftInsert_getElem?_gt _ _ _ _ hpr (by omega)⟩

theorem InsertNeighbor_shift_witness :
    (Shaped 3 2 (⟨3, 2, [[10, 11, 12], [2, 2, 2]]⟩ : Mat Nat)
        (⟨3, 2, [[5, 6, 7], [9, 9, 9]]⟩ : Mat Nat) ∧ 1 < 3 ∧ 0 < 2)
      ∧ ∃ ds2 nb2, InsertNeighbor (⟨3, 2, [[5, 6, 7], [9, 9, 9]]⟩ : Mat Nat)
            (⟨3, 2, [[10, 11, 12], [2, 2, 2]]⟩ : Mat Nat) 0 1 42 6 = some (ds2, nb2)
        ∧ Shaped 3 2 nb2 ds2
        ∧ (∀ q2, q2 ≠ 0 →
            nb2.col q2 = (⟨3, 2, [[10, 11, 12], [2, 2, 2]]⟩ : Mat Nat).col q2
              ∧ ds2.col q2 = (⟨3, 2, [[5, 6, 7], [9, 9, 9]]⟩ : Mat Nat).col q2)
        ∧ (nb2.col 0).length = 3 ∧ (ds2.col 0).length = 3
        ∧ (∀ r, r < 1 →
            (nb2.col 0)[r]? = ((⟨3, 2, [[10, 11, 12], [2, 2, 2]]⟩ : Mat Nat).col 0)[r]?
              ∧ (ds2.col 0)[r]? = ((⟨3, 2, [[5, 6, 7], [9, 9, 9]]⟩ : Mat Nat).col 0)[r]?)
        ∧ ((nb2.col 0)[1]? = some 42 ∧ (ds2.col 0)[1]? = some 6)
        ∧ (∀ r, 1 < r → r ≤ 3 - 1 →
            (nb2.col 0)[r]? = ((⟨3, 2, [[10, 11, 12], [2, 2, 2]]⟩ : Mat Nat).col 0)[r - 1]?
              ∧ (ds2.col 0)[r]?
                = ((⟨3, 2, [[5, 6, 7], [9, 9, 9]]⟩ : Mat Nat).col 0)[r - 1]?) :=
  ⟨⟨by
      refine ⟨⟨rfl, ?_⟩, ⟨rfl, ?_⟩, rfl, rfl, rfl, rfl⟩
      · intro c hc; simp at hc; rcases hc with h | h <;> rw [h] <;> rfl
      · intro c hc; simp at hc; rcases hc with h | h <;> rw [h] <;> rfl,
    by decide, by decide⟩,
    InsertNeighbor_shift 3 2 0 1 42 6 ⟨3, 2, [[10, 11, 12], [2, 2, 2]]⟩
      ⟨3, 2, [[5, 6, 7], [9, 9, 9]]⟩
      (by
        refine ⟨⟨rfl, ?_⟩, ⟨rfl, ?_⟩, rfl, rfl, rfl, rfl⟩
        · intro c hc; simp at hc; rcases hc with h | h <;> rw [h] <;> rfl
        · intro c hc; simp at hc; rcases hc with h | h <;> rw [h] <;> rfl)
      (by decide) (by decide)⟩

/-! ## Searches that return, under any ranking policy -/

theorem InsertNeighbor_bounds {D : Type} (k n q pos j : Nat) (x : D) (nb : Mat Nat)
    (ds : Mat D) (hs : Shaped k n nb ds) (r : Mat D × Mat Nat)
    (h : InsertNeighbor ds nb q pos j x = some r) : pos < k ∧ q < n := by
  unfold InsertNeighbor at h
  by_cases hg : pos < ds.n_rows ∧ pos < nb.n_rows ∧ q < ds.n_cols ∧ q < nb.n_cols
  · obtain ⟨_, _, hnr, hdr, hnc, hdc⟩ := hs
    exact ⟨by omega, by omega⟩
  · rw [if_neg hg] at h
    exact absurd h (by simp)

theorem offer_specReturned {D : Type} (P : SortPolicy D) (k n q j : Nat) (x : D)
    (nb : Mat Nat) (ds : Mat D) (hs : Shaped k n nb ds) (nb2 : Mat Nat) (ds2 : Mat D)
    (h : (match P.SortDistance (ds.col q) (nb.col q) x with
        | none => some (nb, ds)
        | some insertPosition =>
          (InsertNeighbor ds nb q insertPosition j x).map (fun r => (r.2, r.1)))
        = some (nb2, ds2)) :
    Shaped k n nb2 ds2
      ∧ (nb2.col q, ds2.col q) = offer P (nb.col q, ds.col q) j x
      ∧ ∀ q2, q2 ≠ q → nb2.col q2 = nb.col q2 ∧ ds2.col q2 = ds.col q2 := by
  unfold offer
  cases hp : P.SortDistance (ds.col q) (nb.col q) x with
  | none =>
    simp only [hp, Option.some.injEq, Prod.mk.injEq] at h
    obtain ⟨h1, h2⟩ := h
    subst h1 h2
    exact ⟨hs, rfl, fun _ _ => ⟨rfl, rfl⟩⟩
  | some p =>
    simp only [hp] at h
    cases hi : InsertNeighbor ds nb q p j x with
    | none => simp [hi] at h
    | some r =>
      obtain ⟨hpk, hq⟩ := InsertNeighbor_bounds k n q p j x nb ds hs r hi
      obtain ⟨ds3, nb3, he, hs3, hc1, hc2, ho⟩ :=
        InsertNeighbor_spec k n q p j x nb ds hs hpk hq
      rw [he] at h
      simp only [Option.map_some', Option.some.injEq, Prod.mk.injEq] at h
      obtain ⟨h1, h2⟩ := h
      subst h1 h2
      refine ⟨hs3, ?_, ho⟩
      simp [hc1, hc2]

theorem BaseCase_specReturned {D : Type} [Zero D] (P : SortPolicy D) (E : EuclideanDistance D)
    (self : lshModel D) (querySet : Mat D) (k n q : Nat) :
    BaseSpecReturned k n q (fun j => BaseCase P E self q j querySet)
      (biStep P E self querySet q) := by
  intro j nb ds nb2 ds2 hs h
  exact offer_specReturned P k n q j _ nb ds hs nb2 ds2 h

theorem BaseCaseMonochromatic_specReturned {D : Type} [Zero D] (P : SortPolicy D)
    (E : EuclideanDistance D) (self : lshModel D) (k n q : Nat) :
    BaseSpecReturned k n q (fun j => BaseCaseMonochromatic P E self q j)
      (monoStep P E self q) := by
  intro j nb ds nb2 ds2 hs h
  by_cases hqj : q = j
  · simp only [BaseCaseMonochromatic, hqj, if_true, Option.some.injEq, Prod.mk.injEq] at h
    obtain ⟨h1, h2⟩ := h
    subst h1 h2
    refine ⟨hs, ?_, fun _ _ => ⟨rfl, rfl⟩⟩
    simp [monoStep, hqj]
  · simp only [BaseCaseMonochromatic, hqj, if_false] at h
    have := offer_specReturned P k n q j _ nb ds hs nb2 ds2 h
    simpa only [monoStep, hqj, if_false] using this

theorem candidateLoop_specReturned {D : Type} (k n q : Nat)
    (base : Nat → Mat Nat → Mat D → Option (Mat Nat × Mat D))
    (step : List Nat × List D → Nat → List Nat × List D)
    (hb : BaseSpecReturned k n q base step) :
    ∀ (js : List Nat) (nb : Mat Nat) (ds : Mat D) (nb2 : Mat Nat) (ds2 : Mat D),
      Shaped k n nb ds → candidateLoop base js nb ds = some (nb2, ds2) →
      Shaped k n nb2 ds2
        ∧ (nb2.col q, ds2.col q) = js.foldl step (nb.col q, ds.col q)
        ∧ ∀ q2, q2 ≠ q → nb2.col q2 = nb.col q2 ∧ ds2.col q2 = ds.col q2 := by
  intro js
  induction js with
  | nil =>
    intro nb ds nb2 ds2 hs h
    simp only [candidateLoop, Option.some.injEq, Prod.mk.injEq] at h
    obtain ⟨h1, h2⟩ := h
    subst h1 h2
    exact ⟨hs, rfl, fun _ _ => ⟨rfl, rfl⟩⟩
  | cons j js ih =>
    intro nb ds nb2 ds2 hs h
    simp only [candidateLoop] at h
    cases hb1 : base j nb ds with
    | none => simp [hb1] at h
    | some r =>
      simp only [hb1] at h
      obtain ⟨hs1, hc1, ho1⟩ := hb j nb ds r.1 r.2 hs hb1
      obtain ⟨hs2, hc2, ho2⟩ := ih r.1 r.2 nb2 ds2 hs1 h
      refine ⟨hs2, ?_, ?_⟩
      · rw [hc2, hc1]; rfl
      · intro q2 hq2
        exact ⟨(ho2 q2 hq2).1.trans (ho1 q2 hq2).1, (ho2 q2 hq2).2.trans (ho1 q2 hq2).2⟩

theorem queryLoop_specReturned {D : Type} (self : lshModel D) (t k n : Nat)
    (point : Nat → List D)
    (base : Nat → Nat → Mat Nat → Mat D → Option (Mat Nat × Mat D))
    (step : Nat → List Nat × List D → Nat → List Nat × List D)
    (hb : ∀ q, BaseSpecReturned k n q (base q) (step q)) :
    ∀ (qs : List Nat) (st st2 : LoopState D), qs.Nodup →
      Shaped k n st.resultingNeighbors st.distances →
      queryLoop self t point base qs st = some st2 →
      Shaped k n st2.resultingNeighbors st2.distances
        ∧ (∀ q ∈ qs, (st2.resultingNeighbors.col q, st2.distances.col q)
            = (ReturnIndicesFromTable self (point q) t).foldl (step q)
                (st.resultingNeighbors.col q, st.distances.col q))
        ∧ (∀ q, q ∉ qs → st2.resultingNeighbors.col q = st.resultingNeighbors.col q
            ∧ st2.distances.col q = st.distances.col q) := by
  intro qs
  induction qs with
  | nil =>
    intro st st2 _ hs h
    simp only [queryLoop, Option.some.injEq] at h
    subst h
    exact ⟨hs, by simp, fun _ _ => ⟨rfl, rfl⟩⟩
  | cons i is ih =>
    intro st st2 hnd hs h
    obtain ⟨hni, hnd2⟩ := List.nodup_cons.mp hnd
    simp only [queryLoop] at h
    cases hc : candidateLoop (base i) (ReturnIndicesFromTable self (point i) t)
        st.resultingNeighbors st.distances with
    | none => simp [hc] at h
    | some r =>
      simp only [hc] at h
      obtain ⟨hs1, hc1, ho1⟩ := candidateLoop_specReturned k n i (base i) (step i) (hb i)
        _ _ _ r.1 r.2 hs hc
      obtain ⟨hs2, hc2, ho2⟩ := ih _ st2 hnd2 hs1 h
      refine ⟨hs2, ?_, ?_⟩
      · intro q hq
        rcases List.mem_cons.mp hq with e | e
        · subst e
          have := ho2 q hni
          simp only at this
          rw [this.1, this.2, hc1]
        · have hqi : q ≠ i := fun e2 => hni (e2 ▸ e)
          rw [hc2 q e]
          simp only
          rw [(ho1 q hqi).1, (ho1 q hqi).2]
      · intro q hq
        have hqi : q ≠ i := fun e => hq (e ▸ List.mem_cons_self _ _)
        have hq2 : q ∉ is := fun e => hq (List.mem_cons_of_mem _ e)
        have := ho2 q hq2
        simp only at this
        exact ⟨this.1.trans (ho1 q hqi).1, this.2.trans (ho1 q hqi).2⟩

/-- The result column of each query after a bichromatic search that returns
with `k >= 1`, for any ranking policy. -/
theorem Search_column_of_returned {D : Type} [Zero D] (P : SortPolicy D)
    (E : EuclideanDistance D) (self : lshModel D) (querySet : Mat D) (k : Nat)
    (rn : Mat Nat) (ds : Mat D) (t : Nat) (hk : 1 ≤ k)
    (hret : (Search P E self querySet k rn ds t).outcome = Outcome.returned) :
    Shaped k querySet.n_cols (Search P E self querySet k rn ds t).resultingNeighbors
        (Search P E self querySet k rn ds t).distances
      ∧ ∀ q, q < querySet.n_cols →
          ((Search P E self querySet k rn ds t).resultingNeighbors.col q,
            (Search P E self querySet k rn ds t).distances.col q)
          = (ReturnIndicesFromTable self (querySet.col q) t).foldl
              (biStep P E self querySet q)
              (List.replicate k self.referenceSet.n_cols, List.replicate k P.WorstDistance) := by
  obtain ⟨hrows, hkN⟩ := Search_preconditions P E self querySet k rn ds t hret
  rw [Search_eq_finish P E self querySet k rn ds t hrows hkN hk] at hret ⊢
  obtain ⟨st, hl, _, _, hrn, hds, _⟩ := finish_returned _ _ _ _ _ hret
  rw [hrn, hds]
  obtain ⟨hs2, hc, _⟩ := queryLoop_specReturned self t k querySet.n_cols
    (fun i => querySet.col i) (fun i j => BaseCase P E self i j querySet)
    (biStep P E self querySet)
    (fun q => BaseCase_specReturned P E self querySet k querySet.n_cols q)
    (List.range querySet.n_cols) _ st (List.nodup_range _)
    (Shaped_fill k querySet.n_cols self.referenceSet.n_cols P.WorstDistance rn ds) hl
  refine ⟨hs2, ?_⟩
  intro q hq
  rw [hc q (List.mem_range.mpr hq)]
  simp only
  rw [Mat.col_fill (rn.set_size k querySet.n_cols) _ q hq,
    Mat.col_fill (ds.set_size k querySet.n_cols) _ q hq]
  rfl

/-- The result column of each query after a monochromatic search that
returns, for any ranking policy. -/
theorem SearchMonochromatic_column_of_returned {D : Type} [Zero D] (P : SortPolicy D)
    (E : EuclideanDistance D) (self : lshModel D) (k : Nat)
    (rn : Mat Nat) (ds : Mat D) (t : Nat)
    (hret : (SearchMonochromatic P E self k rn ds t).outcome = Outcome.returned) :
    Shaped k self.referenceSet.n_cols
        (SearchMonochromatic P E self k rn ds t).resultingNeighbors
        (SearchMonochromatic P E self k rn ds t).distances
      ∧ ∀ q, q < self.referenceSet.n_cols →
          ((SearchMonochromatic P E self k rn ds t).resultingNeighbors.col q,
            (SearchMonochromatic P E self k rn ds t).distances.col q)
          = (ReturnIndicesFromTable self (self.referenceSet.col q) t).foldl
              (monoStep P E self q)
              (List.replicate k self.referenceSet.n_cols, List.replicate k P.WorstDistance) := by
  unfold SearchMonochromatic at hret ⊢
  obtain ⟨st, hl, _, _, hrn, hds, _⟩ := finish_returned _ _ _ _ _ hret
  rw [hrn, hds]
  obtain ⟨hs2, hc, _⟩ := queryLoop_specReturned self t k self.referenceSet.n_cols
    (fun i => self.referenceSet.col i) (fun i j => BaseCaseMonochromatic P E self i j)
    (monoStep P E self)
    (fun q => BaseCaseMonochromatic_specReturned P E self k self.referenceSet.n_cols q)
    (List.range self.referenceSet.n_cols) _ st (List.nodup_range _)
    (Shaped_fill k self.referenceSet.n_cols self.referenceSet.n_cols P.WorstDistance rn ds) hl
  refine ⟨hs2, ?_⟩
  intro q hq
  rw [hc q (List.mem_range.mpr hq)]
  simp only
  rw [Mat.col_fill (rn.set_size k self.referenceSet.n_cols) _ q hq,
    Mat.col_fill (ds.set_size k self.referenceSet.n_cols) _ q hq]
  rfl

theorem shiftInsert_zip {α β : Type} (a : List α) (b : List β) (p : Nat) (x : α) (y : β)
    (h : a.length = b.length) :
    (shiftInsert a p x).zip (shiftInsert b p y) = shiftInsert (a.zip b) p (x, y) := by
  unfold shiftInsert
  rw [List.zip_append (by simp [h]), List.zip_cons_cons]
  simp only [List.zip_eq_zipWith, List.take_zipWith, List.drop_zipWith, List.length_zipWith, h,
    Nat.min_self]

/-- Every pair of a result column is the sentinel pair or a reference index
with its distance, whatever the ranking policy answers. -/
theorem fold_pairs {D : Type} (P : SortPolicy D) (N : Nat) (W : D) (dist : Nat → D)
    (step : List Nat × List D → Nat → List Nat × List D)
    (hstep : ∀ col j, step col j = col ∨ step col j = offer P col j (dist j)) :
    ∀ (js : List Nat) (col : List Nat × List D), col.1.length = col.2.length →
      (∀ x ∈ col.1.zip col.2, x = (N, W) ∨ x.2 = dist x.1) →
      (js.foldl step col).1.length = (js.foldl step col).2.length
        ∧ ∀ x ∈ (js.foldl step col).1.zip (js.foldl step col).2,
            x = (N, W) ∨ x.2 = dist x.1 := by
  intro js
  induction js with
  | nil => intro col h1 h2; exact ⟨h1, h2⟩
  | cons j js ih =>
    intro col h1 h2
    have key : (step col j).1.length = (step col j).2.length
        ∧ ∀ x ∈ (step col j).1.zip (step col j).2, x = (N, W) ∨ x.2 = dist x.1 := by
      rcases hstep col j with h | h
      · rw [h]; exact ⟨h1, h2⟩
      · rw [h]
        unfold offer
        cases hp : P.SortDistance col.2 col.1 (dist j) with
        | none => exact ⟨h1, h2⟩
        | some p =>
          refine ⟨?_, ?_⟩
          · simp only [shiftInsert, List.length_append, List.length_cons, List.length_take,
              List.length_drop, h1]
          · intro x hx
            simp only at hx
            rw [shiftInsert_zip _ _ _ _ _ h1] at hx
            rcases shiftInsert_mem _ _ _ _ hx with e | e
            · exact Or.inr (by rw [e])
            · exact h2 x e
    exact ih (step col j) key.1 key.2

theorem pairs_of_replicate {D : Type} (k N : Nat) (W : D) (dist : Nat → D) :
    ∀ x ∈ (List.replicate k N).zip (List.replicate k W), x = (N, W) ∨ x.2 = dist x.1 := by
  intro x hx
  left
  rw [List.zip_replicate, Nat.min_self] at hx
  exact List.eq_of_mem_replicate hx

/-- C19: for every `Search` call that returns with `k >= 1`, under any ranking
policy, on an index whose `hashType` is 1, 2 or 3, every entry of the result
column of query `q` whose index `j` is not the sentinel `N` carries the
distance between query point `q` and reference point `j` under the metric
that `hashType` selects: `EuclideanDistance::Evaluate` for 1,
`hash.cosineDistance` for 2, `hash.angularDistance` for 3.  First conjunct:
bichromatic; second: monochromatic. -/
theorem Search_entries_paired {D : Type} [Zero D] (P : SortPolicy D)
    (E : EuclideanDistance D) (self : lshModel D) (querySet : Mat D) (k : Nat)
    (rn : Mat Nat) (ds : Mat D) (t q : Nat) (hk : 1 ≤ k) :
    ((Search P E self querySet k rn ds t).outcome = Outcome.returned →
      q < querySet.n_cols →
      ∀ (r j : Nat) (d : D),
        ((Search P E self querySet k rn ds t).resultingNeighbors.col q)[r]? = some j →
        ((Search P E self querySet k rn ds t).distances.col q)[r]? = some d →
        j ≠ self.referenceSet.n_cols →
        (self.hashType = 1 →
            d = E.Evaluate (querySet.col q) (self.referenceSet.col j))
          ∧ (self.hashType = 2 →
            d = self.hash.cosineDistance (querySet.col q) (self.referenceSet.col j))
          ∧ (self.hashType = 3 →
            d = self.hash.angularDistance (querySet.col q) (self.referenceSet.col j)))
      ∧ ((SearchMonochromatic P E self k rn ds t).outcome = Outcome.returned →
        q < self.referenceSet.n_cols →
        ∀ (r j : Nat) (d : D),
          ((SearchMonochromatic P E self k rn ds t).resultingNeighbors.col q)[r]? = some j →
          ((SearchMonochromatic P E self k rn ds t).distances.col q)[r]? = some d →
          j ≠ self.referenceSet.n_cols →
          (self.hashType = 1 →
              d = E.Evaluate (self.referenceSet.col q) (self.referenceSet.col j))
            ∧ (self.hashType = 2 →
              d = self.hash.cosineDistance (self.referenceSet.col q) (self.referenceSet.col j))
            ∧ (self.hashType = 3 →
              d = self.hash.angularDistance (self.referenceSet.col q)
                (self.referenceSet.col j))) := by
  have metric : ∀ (a b : List D) (d : D), d = tempDistance E self a b →
      (self.hashType = 1 → d = E.Evaluate a b)
        ∧ (self.hashType = 2 → d = self.hash.cosineDistance a b)
        ∧ (self.hashType = 3 → d = self.hash.angularDistance a b) := by
    intro a b d hd
    refine ⟨?_, ?_, ?_⟩ <;> intro h <;> rw [hd] <;> simp [tempDistance, h]
  have pick : ∀ (nc : List Nat) (dc : List D) (dist : Nat → D),
      (∀ x ∈ nc.zip dc, x = (self.referenceSet.n_cols, P.WorstDistance) ∨ x.2 = dist x.1) →
      ∀ (r j : Nat) (d : D), nc[r]? = some j → dc[r]? = some d →
        j ≠ self.referenceSet.n_cols → d = dist j := by
    intro nc dc dist hall r j d hj hd hne
    have hz : (nc.zip dc)[r]? = some (j, d) := List.getElem?_zip_eq_some.mpr ⟨hj, hd⟩
    rcases hall (j, d) (List.getElem?_mem hz) with e | e
    · exact absurd (congrArg Prod.fst e) hne
    · exact e
  constructor
  · intro hret hq r j d hj hd hne
    obtain ⟨_, hc⟩ := Search_column_of_returned P E self querySet k rn ds t hk hret
    have h := hc q hq
    have hf := fold_pairs P self.referenceSet.n_cols P.WorstDistance
      (fun j => tempDistance E self (querySet.col q) (self.referenceSet.col j))
      (biStep P E self querySet q) (fun col j => Or.inr rfl)
      (ReturnIndicesFromTable self (querySet.col q) t)
      (List.replicate k self.referenceSet.n_cols, List.replicate k P.WorstDistance)
      (by simp)
      (pairs_of_replicate k self.referenceSet.n_cols P.WorstDistance
        (fun j => tempDistance E self (querySet.col q) (self.referenceSet.col j)))
    rw [← h] at hf
    exact metric _ _ _ (pick _ _
      (fun j => tempDistance E self (querySet.col q) (self.referenceSet.col j))
      hf.2 r j d hj hd hne)
  · intro hret hq r j d hj hd hne
    obtain ⟨_, hc⟩ := SearchMonochromatic_column_of_returned P E self k rn ds t hret
    have h := hc q hq
    have hf := fold_pairs P self.referenceSet.n_cols P.WorstDistance
      (fun j => tempDistance E self (self.referenceSet.col q) (self.referenceSet.col j))
      (monoStep P E self q)
      (fun col j => by
        by_cases hqj : q = j
        · exact Or.inl (by simp [monoStep, hqj])
        · exact Or.inr (by simp only [monoStep, hqj, if_false]))
      (ReturnIndicesFromTable self (self.referenceSet.col q) t)
      (List.replicate k self.referenceSet.n_cols, List.replicate k P.WorstDistance)
      (by simp)
      (pairs_of_replicate k self.referenceSet.n_cols P.WorstDistance
        (fun j => tempDistance E self (self.referenceSet.col q) (self.referenceSet.col j)))
    rw [← h] at hf
    exact metric _ _ _ (pick _ _
      (fun j => tempDistance E self (self.referenceSet.col q) (self.referenceSet.col j))
      hf.2 r j d hj hd hne)

theorem Search_entries_paired_witness :
    (1 ≤ 2 ∧ (demoModel [5, 1, 9]).hashType = 1)
      ∧ (demoSearch.outcome = Outcome.returned ∧ 0 < demoQueries.n_cols
          ∧ (demoSearch.resultingNeighbors.col 0)[1]? = some 1
          ∧ (demoSearch.distances.col 0)[1]? = some 3
          ∧ 1 ≠ (demoModel [5, 1, 9]).referenceSet.n_cols)
      ∧ (((demoModel [5, 1, 9]).hashType = 1 →
            3 = demoMetric.Evaluate (demoQueries.col 0) ((demoModel [5, 1, 9]).referenceSet.col 1))
          ∧ ((demoModel [5, 1, 9]).hashType = 2 →
            3 = (demoModel [5, 1, 9]).hash.cosineDistance (demoQueries.col 0)
              ((demoModel [5, 1, 9]).referenceSet.col 1))
          ∧ ((demoModel [5, 1, 9]).hashType = 3 →
            3 = (demoModel [5, 1, 9]).hash.angularDistance (demoQueries.col 0)
              ((demoModel [5, 1, 9]).referenceSet.col 1)))
      ∧ (demoSearchMonochromatic.outcome = Outcome.returned
          ∧ 0 < (demoModel [5, 1, 9]).referenceSet.n_cols
          ∧ (demoSearchMonochromatic.resultingNeighbors.col 0)[0]? = some 2
          ∧ (demoSearchMonochromatic.distances.col 0)[0]? = some 4
          ∧ 2 ≠ (demoModel [5, 1, 9]).referenceSet.n_cols)
      ∧ (((demoModel [5, 1, 9]).hashType = 1 →
            4 = demoMetric.Evaluate ((demoModel [5, 1, 9]).referenceSet.col 0)
              ((demoModel [5, 1, 9]).referenceSet.col 2))
          ∧ ((demoModel [5, 1, 9]).hashType = 2 →
            4 = (demoModel [5, 1, 9]).hash.cosineDistance
              ((demoModel [5, 1, 9]).referenceSet.col 0)
              ((demoModel [5, 1, 9]).referenceSet.col 2))
          ∧ ((demoModel [5, 1, 9]).hashType = 3 →
            4 = (demoModel [5, 1, 9]).hash.angularDistance
              ((demoModel [5, 1, 9]).referenceSet.col 0)
              ((demoModel [5, 1, 9]).referenceSet.col 2))) :=
  ⟨by decide, ⟨by decide, by decide, by decide, by decide, by decide⟩,
    (Search_entries_paired (NearestNeighborSort 1000) demoMetric (demoModel [5, 1, 9])
      demoQueries 2 (emptyMat Nat) (emptyMat Nat) 0 0 (by decide)).1
      (by decide) (by decide) 1 1 3 (by decide) (by decide) (by decide),
    ⟨by decide, by decide, by decide, by decide, by decide⟩,
    (Search_entries_paired (NearestNeighborSort 1000) demoMetric (demoModel [5, 1, 9])
      demoQueries 2 (emptyMat Nat) (emptyMat Nat) 0 0 (by decide)).2
      (by decide) (by decide) 0 2 4 (by decide) (by decide) (by decide)⟩

/-! ## Frame of the searches and the final division -/

theorem finish_frame {D : Type} (self : lshModel D) (n : Nat)
    (looped : Option (LoopState D)) (n0 : Mat Nat) (d0 : Mat D) :
    SameTrainedState self (finish self n looped n0 d0).model := by
  cases looped with
  | none => exact ⟨rfl, rfl, rfl, rfl, rfl, rfl, rfl, rfl, rfl, rfl, rfl, rfl⟩
  | some st => exact ⟨rfl, rfl, rfl, rfl, rfl, rfl, rfl, rfl, rfl, rfl, rfl, rfl⟩

/-- A bichromatic search that passes both checks with `k >= 1` and a query set
without columns reaches `avgIndicesReturned /= querySet.n_cols` with a zero
divisor. -/
theorem Search_no_queries {D : Type} [Zero D] (P : SortPolicy D) (E : EuclideanDistance D)
    (self : lshModel D) (querySet : Mat D) (k : Nat) (rn : Mat Nat) (ds : Mat D) (t : Nat)
    (hrows : querySet.n_rows = self.referenceSet.n_rows)
    (hkN : k ≤ self.referenceSet.n_cols) (hk : 1 ≤ k) (hn : querySet.n_cols = 0) :
    (Search P E self querySet k rn ds t).outcome
      = Outcome.undefined Fault.division_by_zero := by
  rw [Search_eq_finish P E self querySet k rn ds t hrows hkN hk]
  simp [hn, queryLoop, finish]

/-- A monochromatic search on an index without reference points reaches
`avgIndicesReturned /= referenceSet->n_cols` with a zero divisor, for every
`k`. -/
theorem SearchMonochromatic_no_points {D : Type} [Zero D] (P : SortPolicy D)
    (E : EuclideanDistance D) (self : lshModel D) (k : Nat) (rn : Mat Nat) (ds : Mat D)
    (t : Nat) (hn : self.referenceSet.n_cols = 0) :
    (SearchMonochromatic P E self k rn ds t).outcome
      = Outcome.undefined Fault.division_by_zero := by
  simp [SearchMonochromatic, hn, queryLoop, finish]

/-- C21: both `Search` overloads, for every index, policy, metric, query set,
`k`, output matrices and table count, and on every path (normal return,
thrown error, or up to the point where the call runs into undefined
behaviour), leave the reference set, the hash state, the ownership flag and
every scalar parameter, `hashWidth` included, as they were; besides the
output matrices only the distance-evaluation counter can differ. -/
theorem Search_frame {D : Type} [Zero D] (P : SortPolicy D) (E : EuclideanDistance D)
    (self : lshModel D) (querySet : Mat D) (k : Nat) (rn : Mat Nat) (ds : Mat D) (t : Nat) :
    SameTrainedState self (Search P E self querySet k rn ds t).model
      ∧ SameTrainedState self (SearchMonochromatic P E self k rn ds t).model := by
  have hself : SameTrainedState self self :=
    ⟨rfl, rfl, rfl, rfl, rfl, rfl, rfl, rfl, rfl, rfl, rfl, rfl⟩
  constructor
  · by_cases h1 : querySet.n_rows = self.referenceSet.n_rows
    · by_cases h2 : k > self.referenceSet.n_cols
      · simpa [Search, h1, h2] using hself
      · by_cases h3 : k = 0
        · simpa [Search, h1, h3] using hself
        · rw [Search_eq_finish P E self querySet k rn ds t h1 (by omega) (by omega)]
          exact finish_frame _ _ _ _ _
    · simpa [Search, h1] using hself
  · unfold SearchMonochromatic
    exact finish_frame _ _ _ _ _

/-- C22 (failing input): a bichromatic `Search` with `k = 1` on an index over
three points, with a query set of the right dimensionality and no columns,
and a monochromatic `Search` on the default-constructed index (no reference
points) both reach the division of `avgIndicesReturned` by zero. -/
theorem Search_divides_by_zero :
    (demoModel [5, 1, 9]).referenceSet.n_rows = 1
      ∧ 1 ≤ (demoModel [5, 1, 9]).referenceSet.n_cols
      ∧ (Search (NearestNeighborSort 1000) demoMetric (demoModel [5, 1, 9]) ⟨1, 0, []⟩ 1
          (emptyMat Nat) (emptyMat Nat) 0).outcome = Outcome.undefined Fault.division_by_zero
      ∧ (lshModel.empty demoHash).referenceSet.n_cols = 0
      ∧ (SearchMonochromatic (NearestNeighborSort 1000) demoMetric (lshModel.empty demoHash) 1
          (emptyMat Nat) (emptyMat Nat) 0).outcome
          = Outcome.undefined Fault.division_by_zero := by
  decide

end neighbor
end mlpack
